import Mathlib

/-!
Verification development for the mytask backend's sprint-progress /
cache-coherency subsystem (src/controllers/sprintController.js,
src/controllers/taskController.js, src/models/sprintModel.js,
src/models/taskModel.js, src/models/projectModel.js,
src/services/cacheService.js).

The JavaScript controllers are shallowly embedded as pure Lean functions over
an explicit document store.  MongoDB sessions/transactions are modelled by
threading two store views: `base`, the committed data (what reads issued
without the session observe while a transaction is open), and `cur`, the
session view holding the transaction's pending writes.  A successful
`commitTransaction` publishes `cur`; any error path aborts and leaves the
committed store untouched.  The process-local node-cache and the socket.io /
notification side effects are modelled by an explicit cache value and an
ordered effect trace.  Awaited store writes (and the commit itself) may fail;
failure is injected through a fault oracle in the context, mirroring the fact
that any of these awaits can reject at runtime.
-/

namespace MyTask

/-- Document identifiers (Mongo ObjectIds, abstracted to naturals). -/
abbrev DocId := Nat

/-- Project document (src/models/projectModel.js).  Only the fields the
claims depend on are carried: `settings.statuses` is flattened to `statuses`
(default vocabulary ToDo/Doing/Testing/Done) and `tasks` is the project's
task-reference array. -/
structure Project where
  id : DocId
  ownerUserId : DocId
  statuses : List String
  tasks : List DocId
deriving Repr, DecidableEq

/-- Default status vocabulary from projectModel.js
(settings.statuses default) and the taskModel.js enum. -/
def defaultStatuses : List String := ["ToDo", "Doing", "Testing", "Done"]

/-- Sprint document (src/models/sprintModel.js).  Dates are abstract integer
instants; `none` means the field is unset. -/
structure Sprint where
  id : DocId
  projectId : DocId
  name : String
  startDate : Option Int
  endDate : Option Int
  taskIds : List DocId
  progressPercentage : Nat
  status : String
deriving Repr, DecidableEq

/-- Task document (src/models/taskModel.js, the enum variant cited by the
claims).  `endDate` is the completion timestamp written by updateTask. -/
structure Task where
  id : DocId
  projectId : DocId
  title : String
  status : String
  sprintId : Option DocId
  assignedTo : Option DocId
  endDate : Option Int
deriving Repr, DecidableEq

/-- The document store: the three collections the subsystem touches. -/
structure Store where
  projects : List Project
  sprints : List Sprint
  tasks : List Task
deriving Repr, DecidableEq

/-- Model of Project.findById. -/
def findProject (s : Store) (pid : DocId) : Option Project :=
  s.projects.find? (fun p => p.id == pid)

/-- Model of Sprint.findById. -/
def findSprint (s : Store) (sid : DocId) : Option Sprint :=
  s.sprints.find? (fun sp => sp.id == sid)

/-- Model of Task.findById. -/
def findTask (s : Store) (tid : DocId) : Option Task :=
  s.tasks.find? (fun t => t.id == tid)

/-- Model of Task.find({_id: {$in: ids}}): the member tasks of a sprint, in
store order. -/
def tasksIn (s : Store) (ids : List DocId) : List Task :=
  s.tasks.filter (fun t => ids.contains t.id)

/-- Update the sprint document with the given id (Mongo _id lookups are
unique; the update function preserves the id at every call site). -/
def updSprint (s : Store) (sid : DocId) (f : Sprint → Sprint) : Store :=
  { s with sprints := s.sprints.map (fun sp => if sp.id == sid then f sp else sp) }

/-- Update the task document with the given id. -/
def updTask (s : Store) (tid : DocId) (f : Task → Task) : Store :=
  { s with tasks := s.tasks.map (fun t => if t.id == tid then f t else t) }

/-- Update the project document with the given id. -/
def updProject (s : Store) (pid : DocId) (f : Project → Project) : Store :=
  { s with projects := s.projects.map (fun p => if p.id == pid then f p else p) }

/-- Sprint lifecycle status derivation, sprintSchema.pre de save
(src/models/sprintModel.js lines 106-120): runs on every document save; when
both dates are set it overwrites `status` from the current time, otherwise it
leaves the document unchanged. -/
def preSaveSprint (now : Int) (sp : Sprint) : Sprint :=
  match sp.startDate, sp.endDate with
  | some s, some e =>
    if now < s then { sp with status := "Planning" }
    else if now ≤ e then { sp with status := "Active" }
    else { sp with status := "Completed" }
  | _, _ => sp

/-- Math.round(100 * c / t) for 0 ≤ c ≤ t, t > 0: round half away from zero,
here half up since everything is nonnegative.  The JS float computation is
exact at every input appearing in this development. -/
def roundPct (c t : Nat) : Nat := (200 * c + t) / (2 * t)

/-- Cached values (node-cache entries populated by the sprint read paths). -/
inductive CacheVal where
  | sprintsList (ids : List DocId) (total : Nat)
  | sprintDoc (sp : Sprint)
deriving Repr, DecidableEq

/-- The process-local cache: held keys with their values.  TTL expiry is not
modelled; every scenario below stays inside one TTL window. -/
abbrev Cache := List (String × CacheVal)

/-- Substring occurrence test for character lists. -/
def hasSubFrom (key sub : List Char) : Bool :=
  (List.range (key.length + 1)).any (fun i => sub.isPrefixOf (key.drop i))

/-- Split a pattern at its first wildcard star, mirroring the single-replace
semantics of keyPattern.replace in cacheService.js. -/
def splitAtStar : List Char → (List Char × List Char)
  | [] => ([], [])
  | c :: cs =>
    if c = '*' then ([], cs)
    else
      let r := splitAtStar cs
      (c :: r.1, r.2)

/-- RegExp(pre ++ ".*" ++ post).test(key): the unanchored regex matches iff
the key contains `pre` followed (anywhere later) by `post`. -/
def wildcardTest (pre post key : List Char) : Bool :=
  (List.range (key.length + 1)).any
    (fun i => pre.isPrefixOf (key.drop i) && hasSubFrom ((key.drop i).drop pre.length) post)

/-- Model of cacheService.invalidate: with a star the pattern is turned into
a regex and every currently-held matching key is deleted; without a star only
the exact key is deleted. -/
def invalidateCache (pattern : String) (c : Cache) : Cache :=
  if pattern.data.contains '*' then
    let pp := splitAtStar pattern.data
    c.filter (fun kv => !(wildcardTest pp.1 pp.2 kv.1.data))
  else
    c.filter (fun kv => kv.1 != pattern)

/-- Model of cacheService.getOrSet: return the held value on a hit, otherwise
compute, populate and return. -/
def getOrSet (key : String) (computeVal : CacheVal) (c : Cache) : CacheVal × Cache :=
  match c.find? (fun kv => kv.1 == key) with
  | some kv => (kv.2, c)
  | none => (computeVal, (key, computeVal) :: c)

/-- Cache keys used by the sprint controller. -/
def sprintKey (sid : DocId) : String := "sprint:" ++ toString sid

/-- Cache key for a task document. -/
def taskKey (tid : DocId) : String := "task:" ++ toString tid

/-- Exact key used by createSprint's invalidation (note: no star). -/
def projectSprintsKey (pid : DocId) : String :=
  "project:" ++ toString pid ++ ":sprints"

/-- Wildcard pattern used by updateSprint and deleteSprint. -/
def projectSprintsPattern (pid : DocId) : String :=
  "project:" ++ toString pid ++ ":sprints*"

/-- Key used by the getSprintsForProject read path: the serialized query
object is appended after a further colon. -/
def projectSprintsListKey (pid : DocId) (query : String) : String :=
  "project:" ++ toString pid ++ ":sprints:" ++ query

/-- Observable side effects, in execution order.  Socket emits carry the room
and event name (numeric payload for progress events); notifications and the
transaction markers are recorded as opaque events.  Audit logging and the AI
summary calls are external collaborators and are not traced. -/
inductive Effect where
  | inval (pattern : String)
  | emitP (projectId : DocId) (event : String) (n : Nat)
  | emitS (sprintId : DocId) (event : String)
  | notif (userId : DocId)
  | notifMembers (projectId : DocId)
  | commit
  | abort
deriving Repr, DecidableEq

/-- Errors: AppError(message, httpCode) routed through next(), an injected
await failure at a numbered write site, or a TypeError from dereferencing a
null result. -/
inductive Err where
  | app (msg : String) (code : Nat)
  | fault (site : Nat)
  | nullDeref
deriving Repr, DecidableEq

/-- Successful HTTP response payloads (only the claim-relevant parts). -/
inductive Resp where
  | createdSprint (sid : DocId)
  | sprintsList (ids : List DocId) (total : Nat)
  | sprintData (sid : DocId)
  | progress (sid : DocId) (p : Nat)
  | taskData (tid : DocId)
  | deleted
deriving Repr, DecidableEq

instance {e a : Type} [DecidableEq e] [DecidableEq a] : DecidableEq (Except e a) := fun x y =>
  match x, y with
  | .ok u, .ok v =>
    match decEq u v with
    | isTrue h => isTrue (by rw [h])
    | isFalse h => isFalse (by intro hc; cases hc; exact h rfl)
  | .error u, .error v =>
    match decEq u v with
    | isTrue h => isTrue (by rw [h])
    | isFalse h => isFalse (by intro hc; cases hc; exact h rfl)
  | .ok _, .error _ => isFalse (by intro hc; cases hc)
  | .error _, .ok _ => isFalse (by intro hc; cases hc)

/-- Execution context: current time, the write-fault oracle, and the
role-lookup collaborator (getUserRoleInProject). -/
structure Ctx where
  now : Int
  faults : Nat → Bool
  role : DocId → DocId → Option String

/-- Context with no injected write failures. -/
def noFaults (now : Int) (role : DocId → DocId → Option String) : Ctx :=
  ⟨now, fun _ => false, role⟩

/-- Helper hasProjectPermission: owner, Manager or Admin. -/
def hasProjectPermission (ctx : Ctx) (p : Project) (userId : DocId) : Bool :=
  p.ownerUserId == userId ||
    match ctx.role p.id userId with
    | some r => r == "Manager" || r == "Admin"
    | none => false

/-- Helper isProjectMember: owner or any role. -/
def isProjectMember (ctx : Ctx) (p : Project) (userId : DocId) : Bool :=
  p.ownerUserId == userId || (ctx.role p.id userId).isSome

/-- Result of one controller operation: the committed store after the
operation, the cache (process-local, so invalidations survive an abort), the
effect trace, and the outcome delivered to the HTTP layer. -/
structure OpOut where
  store : Store
  cache : Cache
  effects : List Effect
  out : Except Err Resp
deriving Repr

/-- Result of the internal updateSprintProgress helper: the session view
after its save, the cache, its effects, and its return value (null or the
saved sprint document). -/
structure ProgOut where
  cur : Store
  cache : Cache
  effects : List Effect
  out : Except Err (Option Sprint)
deriving Repr

/-- The percentage computed inside updateSprintProgress: member tasks are
fetched with $in over the membership array and a task counts as completed
exactly when its status is the literal string Completed (sprintController.js
lines 637-644). -/
def codeProgress (base : Store) (ids : List DocId) : Nat :=
  let tasks := tasksIn base ids
  if tasks.length == 0 then 0
  else roundPct (tasks.filter (fun t => t.status == "Completed")).length tasks.length

/-- The field patch persisted by the save inside updateSprintProgress: the
modified paths are progressPercentage and the pre-save derived status. -/
def progressPatch (p : Nat) (d : String) : Sprint → Sprint :=
  fun old => { old with progressPercentage := p, status := d }

/-- Embeds updateSprintProgress (sprintController.js lines 632-667).  The
Sprint.findById and Task.find reads are issued WITHOUT the session, so they
observe the committed view `base`, not the transaction's pending writes;
the save is issued with the session when one is open, so it lands in `cur`.
The save persists the document's modified paths: progressPercentage and the
status derived by the pre-save hook.  `site` is the fault-oracle site of the
awaited save. -/
def updateSprintProgress (ctx : Ctx) (site : Nat) (base cur : Store)
    (cache : Cache) (sprintId : DocId) : ProgOut :=
  match findSprint base sprintId with
  | none => ⟨cur, cache, [], .ok none⟩
  | some sprint =>
    if sprint.taskIds.isEmpty then ⟨cur, cache, [], .ok none⟩
    else
      let p := codeProgress base sprint.taskIds
      if ctx.faults site then ⟨cur, cache, [], .error (.fault site)⟩
      else
        let doc := preSaveSprint ctx.now { sprint with progressPercentage := p }
        ⟨updSprint cur sprintId (progressPatch p doc.status),
          invalidateCache (sprintKey sprintId) cache,
          [.emitP sprint.projectId "sprint:progress:updated" p, .inval (sprintKey sprintId)],
          .ok (some doc)⟩

/-- The standalone (session = null) call of updateSprintProgress: reads and
the save all act on the committed store. -/
def updateSprintProgressRun (ctx : Ctx) (st : Store) (cache : Cache)
    (sprintId : DocId) : ProgOut :=
  updateSprintProgress ctx 0 st st cache sprintId

/-- Embeds recalculateSprintProgress (sprintController.js lines 670-702),
the POST recalculate-progress handler.  When updateSprintProgress returns
null the handler reads updatedSprint._id, raising a TypeError which the
catch routes to next(). -/
def recalculateSprintProgress (ctx : Ctx) (userId sprintId : DocId)
    (st : Store) (cache : Cache) : OpOut :=
  match findSprint st sprintId with
  | none => ⟨st, cache, [], .error (.app "Sprint not found" 404)⟩
  | some sprint =>
    match findProject st sprint.projectId with
    | none => ⟨st, cache, [], .error .nullDeref⟩
    | some project =>
      if !hasProjectPermission ctx project userId then
        ⟨st, cache, [], .error (.app "Not authorized to modify sprint" 403)⟩
      else
        let r := updateSprintProgressRun ctx st cache sprintId
        match r.out with
        | .error e => ⟨r.cur, r.cache, r.effects, .error e⟩
        | .ok none => ⟨r.cur, r.cache, r.effects, .error .nullDeref⟩
        | .ok (some doc) =>
          ⟨r.cur, r.cache, r.effects, .ok (.progress doc.id doc.progressPercentage)⟩

/-- Request body for sprint creation. -/
structure SprintInput where
  name : String
  description : String
  startDate : Option Int
  endDate : Option Int
deriving Repr, DecidableEq

/-- Length of a string after trimming surrounding whitespace (the
name.trim().length check of the validator), written over the character list
so that it evaluates by kernel reduction. -/
def trimmedLength (s : String) : Nat :=
  ((s.data.dropWhile Char.isWhitespace).reverse.dropWhile Char.isWhitespace).length

/-- Embeds validateSprintInput (src/validators/sprintValidator.js).  Dates
are already instants here, so the invalid-date-format branch cannot fire;
a missing name is the empty string (JS falsiness). -/
def validateSprintInput (d : SprintInput) (isUpdate : Bool) : Option String :=
  if !isUpdate && d.name == "" then some "Sprint name is required"
  else if d.name != "" && (trimmedLength d.name < 3 || trimmedLength d.name > 100) then
    some "Sprint name must be between 3 and 100 characters"
  else
    match d.startDate, d.endDate with
    | some s, some e => if e < s then some "End date must be after start date" else none
    | some _, none => if !isUpdate then some "Both start and end dates must be provided" else none
    | none, some _ => if !isUpdate then some "Both start and end dates must be provided" else none
    | none, none => none

/-- Embeds createSprint (sprintController.js lines 19-98).  Fault sites:
0 = sprint.save, 1 = commitTransaction.  The notify / emit / invalidate side
effects run inside the try block BEFORE the commit (lines 69-83 precede line
85); logAction is an external collaborator and is not traced.  `newSprintId`
is the ObjectId minted for the new document. -/
def createSprint (ctx : Ctx) (userId projectId newSprintId : DocId)
    (input : SprintInput) (st : Store) (cache : Cache) : OpOut :=
  match validateSprintInput input false with
  | some msg => ⟨st, cache, [], .error (.app msg 400)⟩
  | none =>
  match findProject st projectId with
  | none => ⟨st, cache, [], .error (.app "Project not found" 404)⟩
  | some project =>
  if !hasProjectPermission ctx project userId then
    ⟨st, cache, [], .error (.app "Not authorized to create a sprint" 403)⟩
  else if ctx.faults 0 then ⟨st, cache, [.abort], .error (.fault 0)⟩
  else
    let doc := preSaveSprint ctx.now
      { id := newSprintId, projectId := project.id, name := input.name,
        startDate := input.startDate, endDate := input.endDate, taskIds := [],
        progressPercentage := 0, status := "Planning" }
    let cur := { st with sprints := st.sprints ++ [doc] }
    let effects1 : List Effect :=
      [.notifMembers project.id, .emitP project.id "sprint:created" 0,
       .inval (projectSprintsKey project.id)]
    let cache1 := invalidateCache (projectSprintsKey project.id) cache
    if ctx.faults 1 then ⟨st, cache1, effects1 ++ [.abort], .error (.fault 1)⟩
    else ⟨cur, cache1, effects1 ++ [.commit], .ok (.createdSprint newSprintId)⟩

/-- Sprints belonging to a project, in store order.  This is the
getSprintsForProject query result for the empty query object: APIFeatures
applies no filter/sort/search and the default pagination of page 1, limit
100 (the take). -/
def sprintsOfProject (st : Store) (pid : DocId) : List Sprint :=
  (st.sprints.filter (fun sp => sp.projectId == pid)).take 100

/-- Embeds getSprintsForProject (sprintController.js lines 105-170) for the
empty request query, whose serialized form in the cache key is the two-brace
object.  The sprint list is read through the cache under the
query-hash-suffixed key; totalCount is an uncached countDocuments. -/
def getSprintsForProject (ctx : Ctx) (userId pid : DocId)
    (st : Store) (cache : Cache) : OpOut :=
  match findProject st pid with
  | none => ⟨st, cache, [], .error (.app "Project not found" 404)⟩
  | some project =>
  if !isProjectMember ctx project userId then
    ⟨st, cache, [], .error (.app "Not authorized to view project sprints" 403)⟩
  else
    let key := projectSprintsListKey pid "{}"
    let fresh := CacheVal.sprintsList ((sprintsOfProject st pid).map (fun sp => sp.id))
      (st.sprints.filter (fun sp => sp.projectId == pid)).length
    let r := getOrSet key fresh cache
    match r.1 with
    | .sprintsList ids total => ⟨st, r.2, [], .ok (.sprintsList ids total)⟩
    | .sprintDoc _ => ⟨st, r.2, [], .error .nullDeref⟩

/-- Request body for sprint update (the documented updatable fields). -/
structure SprintPatch where
  name : Option String
  startDate : Option Int
  endDate : Option Int
deriving Repr, DecidableEq

/-- Mongo $set of the provided patch fields onto a sprint document.  Note
findByIdAndUpdate does not run the pre-save hook, so status is not
re-derived here. -/
def applySprintPatch (p : SprintPatch) (sp : Sprint) : Sprint :=
  { sp with
    name := p.name.getD sp.name,
    startDate := match p.startDate with | some v => some v | none => sp.startDate,
    endDate := match p.endDate with | some v => some v | none => sp.endDate }

/-- Embeds updateSprint (sprintController.js lines 223-309).  Fault sites:
0 = findByIdAndUpdate, 1 = commitTransaction. -/
def updateSprint (ctx : Ctx) (userId sprintId : DocId) (patch : SprintPatch)
    (st : Store) (cache : Cache) : OpOut :=
  match validateSprintInput ⟨patch.name.getD "", "", patch.startDate, patch.endDate⟩ true with
  | some msg => ⟨st, cache, [], .error (.app msg 400)⟩
  | none =>
  match findSprint st sprintId with
  | none => ⟨st, cache, [], .error (.app "Sprint not found" 404)⟩
  | some sprint =>
  match findProject st sprint.projectId with
  | none => ⟨st, cache, [], .error (.app "Parent project not found" 404)⟩
  | some project =>
  if !hasProjectPermission ctx project userId then
    ⟨st, cache, [], .error (.app "Not authorized to update sprint" 403)⟩
  else if ctx.faults 0 then ⟨st, cache, [.abort], .error (.fault 0)⟩
  else
    let cur := updSprint st sprintId (applySprintPatch patch)
    let updatedSprint := applySprintPatch patch sprint
    let effects1 : List Effect :=
      [.emitP project.id "sprint:updated" updatedSprint.progressPercentage,
       .emitS sprintId "sprint:details:updated",
       .inval (sprintKey sprintId), .inval (projectSprintsPattern project.id)]
    let cache1 := invalidateCache (projectSprintsPattern project.id)
      (invalidateCache (sprintKey sprintId) cache)
    if ctx.faults 1 then ⟨st, cache1, effects1 ++ [.abort], .error (.fault 1)⟩
    else ⟨cur, cache1, effects1 ++ [.commit], .ok (.sprintData sprintId)⟩

/-- Embeds deleteSprint (sprintController.js lines 316-389).  Fault sites:
0 = Task.updateMany, 1 = Sprint.deleteOne, 2 = commitTransaction.  The
cascade clears sprintId exactly on the tasks listed in the sprint's
membership array. -/
def deleteSprint (ctx : Ctx) (userId sprintId : DocId)
    (st : Store) (cache : Cache) : OpOut :=
  match findSprint st sprintId with
  | none => ⟨st, cache, [], .error (.app "Sprint not found" 404)⟩
  | some sprint =>
  match findProject st sprint.projectId with
  | none => ⟨st, cache, [], .error (.app "Parent project not found" 404)⟩
  | some project =>
  if !hasProjectPermission ctx project userId then
    ⟨st, cache, [], .error (.app "Not authorized to delete sprint" 403)⟩
  else if ctx.faults 0 then ⟨st, cache, [.abort], .error (.fault 0)⟩
  else
    let clearMember := fun (t : Task) =>
      if sprint.taskIds.contains t.id then { t with sprintId := none } else t
    let cur1 := { st with tasks := st.tasks.map clearMember }
    if ctx.faults 1 then ⟨st, cache, [.abort], .error (.fault 1)⟩
    else
      let cur2 := { cur1 with sprints := cur1.sprints.filter (fun sp => sp.id != sprintId) }
      let effects1 : List Effect :=
        [.emitP project.id "sprint:deleted" 0, .inval (sprintKey sprintId),
         .inval (projectSprintsPattern project.id)]
      let cache1 := invalidateCache (projectSprintsPattern project.id)
        (invalidateCache (sprintKey sprintId) cache)
      if ctx.faults 2 then ⟨st, cache1, effects1 ++ [.abort], .error (.fault 2)⟩
      else ⟨cur2, cache1, effects1 ++ [.commit], .ok .deleted⟩

/-- Embeds addTaskToSprint (sprintController.js lines 396-521).  Fault
sites: 0 = otherSprint.save, 1 = sprint.save (executed only when the task is
not yet a member), 2 = task.save, 3 = the save inside updateSprintProgress,
4 = commitTransaction.  The displacement branch invalidates and emits for
the other sprint in the middle of the transaction; updateSprintProgress is
called with the session but reads without it (base view `st`). -/
def addTaskToSprint (ctx : Ctx) (userId sprintId taskId : DocId)
    (st : Store) (cache : Cache) : OpOut :=
  match findSprint st sprintId with
  | none => ⟨st, cache, [], .error (.app "Sprint not found" 404)⟩
  | some sprint =>
  match findProject st sprint.projectId with
  | none => ⟨st, cache, [], .error (.app "Project not found" 404)⟩
  | some project =>
  if !hasProjectPermission ctx project userId then
    ⟨st, cache, [], .error (.app "Not authorized to modify sprint" 403)⟩
  else
  match findTask st taskId with
  | none => ⟨st, cache, [], .error (.app "Task not found" 404)⟩
  | some task =>
  if task.projectId != project.id then
    ⟨st, cache, [], .error (.app "Task does not belong to this project" 400)⟩
  else
    let disp : Except (Cache × List Effect × Err) (Store × Cache × List Effect) :=
      match task.sprintId with
      | some otherId =>
        if otherId != sprintId then
          match findSprint st otherId with
          | some otherSprint =>
            if ctx.faults 0 then .error (cache, [], .fault 0)
            else
              let otherDoc := preSaveSprint ctx.now
                { otherSprint with taskIds := otherSprint.taskIds.filter (fun tId => tId != taskId) }
              .ok (updSprint st otherId (fun _ => otherDoc),
                invalidateCache (sprintKey otherId) cache,
                [Effect.inval (sprintKey otherId), Effect.emitS otherId "sprint:task:removed"])
          | none => .ok (st, cache, [])
        else .ok (st, cache, [])
      | none => .ok (st, cache, [])
    match disp with
    | .error ec => ⟨st, ec.1, ec.2.1 ++ [.abort], .error ec.2.2⟩
    | .ok (cur1, cache1, eff1) =>
      let inSprint := sprint.taskIds.contains taskId
      if !inSprint && ctx.faults 1 then ⟨st, cache1, eff1 ++ [.abort], .error (.fault 1)⟩
      else
        let cur2 :=
          if inSprint then cur1
          else updSprint cur1 sprintId
            (fun _ => preSaveSprint ctx.now { sprint with taskIds := sprint.taskIds ++ [taskId] })
        if ctx.faults 2 then ⟨st, cache1, eff1 ++ [.abort], .error (.fault 2)⟩
        else
          let cur3 := updTask cur2 taskId (fun t => { t with sprintId := some sprintId })
          let eff2 := eff1 ++
            (match task.assignedTo with | some uid => [Effect.notif uid] | none => [])
          let pr := updateSprintProgress ctx 3 st cur3 cache1 sprintId
          match pr.out with
          | .error e => ⟨st, pr.cache, eff2 ++ pr.effects ++ [.abort], .error e⟩
          | .ok _ =>
            let eff3 := eff2 ++ pr.effects ++ [Effect.emitS sprintId "sprint:task:added"]
            let cache2 := invalidateCache (taskKey taskId)
              (invalidateCache (sprintKey sprintId) pr.cache)
            let eff4 := eff3 ++ [Effect.inval (sprintKey sprintId), Effect.inval (taskKey taskId)]
            if ctx.faults 4 then ⟨st, cache2, eff4 ++ [.abort], .error (.fault 4)⟩
            else ⟨pr.cur, cache2, eff4 ++ [.commit], .ok (.sprintData sprintId)⟩

/-- Embeds removeTaskFromSprint (sprintController.js lines 528-626).  Fault
sites: 0 = sprint.save, 1 = task.save (or the fallback findByIdAndUpdate),
2 = the save inside updateSprintProgress, 3 = commitTransaction.  The task's
sprintId is cleared unconditionally, whether or not the task is a member of
this sprint; a missing task still has the membership array cleaned. -/
def removeTaskFromSprint (ctx : Ctx) (userId sprintId taskId : DocId)
    (st : Store) (cache : Cache) : OpOut :=
  match findSprint st sprintId with
  | none => ⟨st, cache, [], .error (.app "Sprint not found" 404)⟩
  | some sprint =>
  match findProject st sprint.projectId with
  | none => ⟨st, cache, [], .error (.app "Project not found" 404)⟩
  | some project =>
  if !hasProjectPermission ctx project userId then
    ⟨st, cache, [], .error (.app "Not authorized to modify sprint" 403)⟩
  else
    let task? := findTask st taskId
    if ctx.faults 0 then ⟨st, cache, [.abort], .error (.fault 0)⟩
    else
      let cur1 := updSprint st sprintId (fun _ => preSaveSprint ctx.now
        { sprint with taskIds := sprint.taskIds.filter (fun tId => tId != taskId) })
      if ctx.faults 1 then ⟨st, cache, [.abort], .error (.fault 1)⟩
      else
        let cur2 := updTask cur1 taskId (fun t => { t with sprintId := none })
        let eff1 :=
          match task? with
          | some task =>
            match task.assignedTo with | some uid => [Effect.notif uid] | none => []
          | none => []
        let pr := updateSprintProgress ctx 2 st cur2 cache sprintId
        match pr.out with
        | .error e => ⟨st, pr.cache, eff1 ++ pr.effects ++ [.abort], .error e⟩
        | .ok _ =>
          let eff2 := eff1 ++ pr.effects ++ [Effect.emitS sprintId "sprint:task:removed"]
          let cache2 := invalidateCache (sprintKey sprintId) pr.cache
          let eff3 := eff2 ++ [Effect.inval (sprintKey sprintId)]
          let cc :=
            match task? with
            | some _ => (invalidateCache (taskKey taskId) cache2,
                eff3 ++ [Effect.inval (taskKey taskId)])
            | none => (cache2, eff3)
          if ctx.faults 3 then ⟨st, cc.1, cc.2 ++ [.abort], .error (.fault 3)⟩
          else ⟨pr.cur, cc.1, cc.2 ++ [.commit], .ok (.sprintData sprintId)⟩

/-- Request body for task update (the claim-relevant fields). -/
structure TaskPatch where
  title : Option String
  status : Option String
deriving Repr, DecidableEq

/-- Embeds updateTask (taskController.js lines 149-249).  A status change
records or clears the completion endDate (Done check, lines 170-180) and
notifies the assignee; the schema enum rejects a modified status outside the
vocabulary at save time.  No transaction and no sprint-progress recompute
occur on this path. -/
def updateTask (ctx : Ctx) (_userId taskId : DocId) (patch : TaskPatch)
    (st : Store) (cache : Cache) : OpOut :=
  match findTask st taskId with
  | none => ⟨st, cache, [], .error (.app "Task not found" 404)⟩
  | some task =>
    let oldStatus := task.status
    let t1 := { task with title := patch.title.getD task.title }
    let statusModified :=
      match patch.status with
      | some s => s != oldStatus
      | none => false
    let t2 :=
      match patch.status with
      | some s =>
        if s != oldStatus then
          let tA := { t1 with status := s }
          if s == "Done" then { tA with endDate := some ctx.now }
          else if oldStatus == "Done" then { tA with endDate := none }
          else tA
        else t1
      | none => t1
    let eff :=
      if statusModified then
        match task.assignedTo with | some uid => [Effect.notif uid] | none => []
      else []
    if statusModified && !(defaultStatuses.contains t2.status) then
      ⟨st, cache, eff, .error (.app "Failed to update task" 500)⟩
    else ⟨updTask st taskId (fun _ => t2), cache, eff, .ok (.taskData taskId)⟩

/-- Embeds deleteTask (taskController.js lines 254-315): the task document
is deleted and pulled from the project's tasks array, but the membership
array of its sprint is NOT touched. -/
def deleteTask (_ctx : Ctx) (_userId taskId : DocId)
    (st : Store) (cache : Cache) : OpOut :=
  match findTask st taskId with
  | none => ⟨st, cache, [], .error (.app "Task not found" 404)⟩
  | some task =>
    let st1 := { st with tasks := st.tasks.filter (fun t => t.id != taskId) }
    let st2 := updProject st1 task.projectId
      (fun p => { p with tasks := p.tasks.filter (fun tid => tid != taskId) })
    let eff :=
      match task.assignedTo with | some uid => [Effect.notif uid] | none => []
    ⟨st2, cache, eff, .ok .deleted⟩

/-- Request body for task creation: the fields destructured by createTask
(sprintId is not among them). -/
structure TaskInput where
  title : String
  projectId : DocId
  assignedTo : Option DocId
  status : Option String
deriving Repr, DecidableEq

/-- Embeds createTask (taskController.js lines 15-66): the new document gets
the schema default status when none is supplied, no sprint reference, and
its id is pushed onto the project's tasks array. -/
def createTask (_ctx : Ctx) (_userId newTaskId : DocId) (input : TaskInput)
    (st : Store) (cache : Cache) : OpOut :=
  let task : Task :=
    { id := newTaskId, projectId := input.projectId, title := input.title,
      status := input.status.getD "ToDo", sprintId := none,
      assignedTo := input.assignedTo, endDate := none }
  if !(defaultStatuses.contains task.status) then
    ⟨st, cache, [], .error (.app "Failed to create task" 500)⟩
  else
    let st1 := { st with tasks := st.tasks ++ [task] }
    let st2 := updProject st1 input.projectId
      (fun p => { p with tasks := p.tasks ++ [newTaskId] })
    let eff :=
      match input.assignedTo with | some uid => [Effect.notif uid] | none => []
    ⟨st2, cache, eff, .ok (.taskData newTaskId)⟩

/-- Specification-side progress formula (spec sections 3, 4.3 and 8),
written from the specification's words for comparison with the
implementation: the share of a sprint's current member tasks whose status is
the vocabulary's terminal label Done, rounded to the nearest integer, and 0
when there are no member tasks. -/
def specProgress (st : Store) (sp : Sprint) : Nat :=
  let tasks := tasksIn st sp.taskIds
  if tasks.length = 0 then 0
  else roundPct ((tasks.filter (fun t => t.status == "Done")).length) tasks.length

/-- Referential symmetry (spec sections 3 and 8), decidable form: for every
existing task T and sprint S, T.sprintId points to S iff S's member list
contains T.id. -/
def refSymB (st : Store) : Bool :=
  st.tasks.all (fun t => st.sprints.all
    (fun sp => (t.sprintId == some sp.id) == sp.taskIds.contains t.id))

/-- Referential symmetry as a proposition. -/
def refSym (st : Store) : Prop :=
  ∀ t ∈ st.tasks, ∀ sp ∈ st.sprints, (t.sprintId = some sp.id ↔ t.id ∈ sp.taskIds)

/-- Store well-formedness: document ids are unique within each collection
(Mongo _id uniqueness). -/
def wfStore (st : Store) : Prop :=
  (st.sprints.map (fun sp => sp.id)).Nodup ∧ (st.tasks.map (fun t => t.id)).Nodup

theorem contains_iff_mem {l : List Nat} {a : Nat} : l.contains a = true ↔ a ∈ l := by
  induction l with
  | nil => simp
  | cons b t ih => simp [List.contains_cons, ih]

theorem refSymB_iff (st : Store) : refSymB st = true ↔ refSym st := by
  unfold refSymB refSym
  simp only [List.all_eq_true, beq_iff_eq]
  constructor
  · intro h t ht sp hsp
    have hh := h t ht sp hsp
    constructor
    · intro hq
      have h1 : (t.sprintId == some sp.id) = true := beq_iff_eq.mpr hq
      rw [h1] at hh
      exact contains_iff_mem.mp hh.symm
    · intro hq
      by_contra hne
      have h1 : (t.sprintId == some sp.id) = false := by
        rw [beq_eq_false_iff_ne]
        exact hne
      rw [h1] at hh
      have h2 : sp.taskIds.contains t.id = true := contains_iff_mem.mpr hq
      rw [h2] at hh
      exact Bool.false_ne_true hh
  · intro h t ht sp hsp
    have hiff := h t ht sp hsp
    by_cases hq : t.sprintId = some sp.id
    · have h1 : (t.sprintId == some sp.id) = true := beq_iff_eq.mpr hq
      have h2 : sp.taskIds.contains t.id = true := contains_iff_mem.mpr (hiff.mp hq)
      rw [h1, h2]
    · have h1 : (t.sprintId == some sp.id) = false := by
        rw [beq_eq_false_iff_ne]
        exact hq
      have h2 : sp.taskIds.contains t.id = false := by
        cases hcb : sp.taskIds.contains t.id
        · rfl
        · exact absurd (hiff.mpr (contains_iff_mem.mp hcb)) hq
      rw [h1, h2]

theorem find?_pred {α : Type} {p : α → Bool} {l : List α} {a : α}
    (h : l.find? p = some a) : p a = true :=
  List.find?_some h

theorem find?_mem {α : Type} {p : α → Bool} {l : List α} {a : α}
    (h : l.find? p = some a) : a ∈ l :=
  List.mem_of_find?_eq_some h

/-- A find? over an id-targeted map commutes with the map when the update
preserves the id of the targeted records. -/
theorem find?_map_upd {α : Type} (p : α → Nat) (f : α → α) (i j : Nat)
    (hf : ∀ x, p x = i → p (f x) = i) (l : List α) :
    (l.map (fun x => if p x == i then f x else x)).find? (fun x => p x == j)
      = (l.find? (fun x => p x == j)).map (fun x => if p x == i then f x else x) := by
  induction l with
  | nil => rfl
  | cons a t ih =>
    by_cases hai : p a = i
    · have he : (if (p a == i) = true then f a else a) = f a := by simp [hai]
      have hfi : p (f a) = i := hf a hai
      simp only [List.map_cons, he]
      by_cases haj : p a = j
      · rw [List.find?_cons_of_pos _ (by simp [hfi]; omega),
          List.find?_cons_of_pos _ (by simp [haj])]
        simp [hai]
      · rw [List.find?_cons_of_neg _ (by simp [hfi]; omega),
          List.find?_cons_of_neg _ (by simp [haj])]
        exact ih
    · have he : (if (p a == i) = true then f a else a) = a := by simp [hai]
      simp only [List.map_cons, he]
      by_cases haj : p a = j
      · rw [List.find?_cons_of_pos _ (by simp [haj]),
          List.find?_cons_of_pos _ (by simp [haj])]
        simp [hai]
      · rw [List.find?_cons_of_neg _ (by simp [haj]),
          List.find?_cons_of_neg _ (by simp [haj])]
        exact ih

theorem findSprint_updSprint (s : Store) (i j : DocId) (f : Sprint → Sprint)
    (hf : ∀ sp, sp.id = i → (f sp).id = i) :
    findSprint (updSprint s i f) j
      = (findSprint s j).map (fun sp => if sp.id == i then f sp else sp) := by
  unfold findSprint updSprint
  exact find?_map_upd (fun sp => sp.id) f i j hf s.sprints

theorem findTask_updTask (s : Store) (i j : DocId) (f : Task → Task)
    (hf : ∀ t, t.id = i → (f t).id = i) :
    findTask (updTask s i f) j
      = (findTask s j).map (fun t => if t.id == i then f t else t) := by
  unfold findTask updTask
  exact find?_map_upd (fun t => t.id) f i j hf s.tasks

theorem findSprint_updTask (s : Store) (i j : DocId) (f : Task → Task) :
    findSprint (updTask s i f) j = findSprint s j := rfl

theorem findTask_updSprint (s : Store) (i j : DocId) (f : Sprint → Sprint) :
    findTask (updSprint s i f) j = findTask s j := rfl

theorem tasksIn_updSprint (s : Store) (i : DocId) (f : Sprint → Sprint)
    (ids : List DocId) : tasksIn (updSprint s i f) ids = tasksIn s ids := rfl

theorem preSaveSprint_id (now : Int) (sp : Sprint) :
    (preSaveSprint now sp).id = sp.id := by
  obtain ⟨i, pj, nm, sd, ed, ti, pp, stt⟩ := sp
  cases sd <;> cases ed <;> simp only [preSaveSprint] <;> first | rfl | (split_ifs <;> rfl)

theorem preSaveSprint_projectId (now : Int) (sp : Sprint) :
    (preSaveSprint now sp).projectId = sp.projectId := by
  obtain ⟨i, pj, nm, sd, ed, ti, pp, stt⟩ := sp
  cases sd <;> cases ed <;> simp only [preSaveSprint] <;> first | rfl | (split_ifs <;> rfl)

theorem preSaveSprint_taskIds (now : Int) (sp : Sprint) :
    (preSaveSprint now sp).taskIds = sp.taskIds := by
  obtain ⟨i, pj, nm, sd, ed, ti, pp, stt⟩ := sp
  cases sd <;> cases ed <;> simp only [preSaveSprint] <;> first | rfl | (split_ifs <;> rfl)

theorem preSaveSprint_progress (now : Int) (sp : Sprint) :
    (preSaveSprint now sp).progressPercentage = sp.progressPercentage := by
  obtain ⟨i, pj, nm, sd, ed, ti, pp, stt⟩ := sp
  cases sd <;> cases ed <;> simp only [preSaveSprint] <;> first | rfl | (split_ifs <;> rfl)

theorem preSaveSprint_startDate (now : Int) (sp : Sprint) :
    (preSaveSprint now sp).startDate = sp.startDate := by
  obtain ⟨i, pj, nm, sd, ed, ti, pp, stt⟩ := sp
  cases sd <;> cases ed <;> simp only [preSaveSprint] <;> first | rfl | (split_ifs <;> rfl)

theorem preSaveSprint_endDate (now : Int) (sp : Sprint) :
    (preSaveSprint now sp).endDate = sp.endDate := by
  obtain ⟨i, pj, nm, sd, ed, ti, pp, stt⟩ := sp
  cases sd <;> cases ed <;> simp only [preSaveSprint] <;> first | rfl | (split_ifs <;> rfl)

/-- Re-deriving the status of an already-derived document is a no-op. -/
theorem preSaveSprint_set_status (now : Int) (y : Sprint) :
    preSaveSprint now { y with status := (preSaveSprint now y).status }
      = preSaveSprint now y := by
  obtain ⟨i, pj, nm, sd, ed, ti, pp, stt⟩ := y
  cases sd <;> cases ed <;> simp only [preSaveSprint] <;> first | rfl | (split_ifs <;> rfl)

theorem invalidateCache_idem (pat : String) (c : Cache) :
    invalidateCache pat (invalidateCache pat c) = invalidateCache pat c := by
  unfold invalidateCache
  split
  · rw [List.filter_filter]
    apply List.filter_congr
    intro kv _
    cases wildcardTest (splitAtStar pat.data).1 (splitAtStar pat.data).2 kv.1.data <;> rfl
  · rw [List.filter_filter]
    apply List.filter_congr
    intro kv _
    cases h : (kv.1 != pat) <;> simp [h]


theorem updSprint_updSprint (s : Store) (i : DocId) (g f : Sprint → Sprint)
    (hg : ∀ sp, sp.id = i → (g sp).id = i) :
    updSprint (updSprint s i g) i f = updSprint s i (fun sp => f (g sp)) := by
  unfold updSprint
  simp only [List.map_map]
  congr 1
  apply List.map_congr_left
  intro x _
  by_cases hx : x.id = i
  · simp [Function.comp, hx, hg x hx]
  · simp [Function.comp, hx]

/-- Reduction lemma: updateSprintProgress on a missing sprint. -/
theorem updateSprintProgress_none (ctx : Ctx) (site : Nat) (base cur : Store)
    (cache : Cache) (sid : DocId) (h : findSprint base sid = none) :
    updateSprintProgress ctx site base cur cache sid = ⟨cur, cache, [], .ok none⟩ := by
  unfold updateSprintProgress
  rw [h]

/-- Reduction lemma: updateSprintProgress on an empty membership list. -/
theorem updateSprintProgress_empty (ctx : Ctx) (site : Nat) (base cur : Store)
    (cache : Cache) (sid : DocId) (sp : Sprint)
    (h : findSprint base sid = some sp) (he : sp.taskIds.isEmpty = true) :
    updateSprintProgress ctx site base cur cache sid = ⟨cur, cache, [], .ok none⟩ := by
  unfold updateSprintProgress
  rw [h]
  simp [he]

/-- Reduction lemma: updateSprintProgress on a nonempty membership list with
no save fault. -/
theorem updateSprintProgress_some (ctx : Ctx) (site : Nat) (base cur : Store)
    (cache : Cache) (sid : DocId) (sp : Sprint)
    (h : findSprint base sid = some sp) (hne : sp.taskIds.isEmpty = false)
    (hfault : ctx.faults site = false) :
    updateSprintProgress ctx site base cur cache sid =
      ⟨updSprint cur sid (progressPatch (codeProgress base sp.taskIds)
          (preSaveSprint ctx.now
            { sp with progressPercentage := codeProgress base sp.taskIds }).status),
       invalidateCache (sprintKey sid) cache,
       [.emitP sp.projectId "sprint:progress:updated" (codeProgress base sp.taskIds),
        .inval (sprintKey sid)],
       .ok (some (preSaveSprint ctx.now
         { sp with progressPercentage := codeProgress base sp.taskIds }))⟩ := by
  unfold updateSprintProgress
  rw [h]
  simp [hne, hfault]

/-- Fixed role assignment used by the concrete scenarios: nobody has a
project role, so only owners pass the permission checks. -/
def roleNone : DocId → DocId → Option String := fun _ _ => none

/-- Context for the concrete scenarios: time 0, no injected faults. -/
def ctxW : Ctx := noFaults 0 roleNone

/-- Concrete store for the C10 witness: one project owned by user 10 and one
sprint with an empty membership list. -/
def stC10 : Store :=
  ⟨[⟨1, 10, defaultStatuses, []⟩],
   [⟨2, 1, "Sprint Two", none, none, [], 0, "Planning"⟩], []⟩

/-- C10: for an existing sprint with an empty taskIds list,
updateSprintProgress returns null without writing any progress value, and
the recalculate-progress handler dereferences that null (updatedSprint._id),
so the request fails with an internal error rather than succeeding with
progress 0, and the stored sprint (hence its progressPercentage) is left
unchanged. -/
theorem c10_empty_sprint_recalculate_null_deref
    (ctx : Ctx) (userId sprintId : DocId) (st : Store) (cache : Cache)
    (sp : Sprint) (proj : Project)
    (hsp : findSprint st sprintId = some sp)
    (hempty : sp.taskIds = [])
    (hproj : findProject st sp.projectId = some proj)
    (hperm : hasProjectPermission ctx proj userId = true) :
    (recalculateSprintProgress ctx userId sprintId st cache).out = .error .nullDeref ∧
    (recalculateSprintProgress ctx userId sprintId st cache).store = st := by
  have hred := updateSprintProgress_empty ctx 0 st st cache sprintId sp hsp
    (by simp [hempty])
  simp only [recalculateSprintProgress, updateSprintProgressRun, hsp, hproj, hperm, hred]
  simp

/-- C10 witness: the theorem applied at a concrete store. -/
theorem c10_witness :
    (recalculateSprintProgress ctxW 10 2 stC10 []).out = .error .nullDeref ∧
    (recalculateSprintProgress ctxW 10 2 stC10 []).store = stC10 :=
  c10_empty_sprint_recalculate_null_deref ctxW 10 2 stC10 []
    ⟨2, 1, "Sprint Two", none, none, [], 0, "Planning"⟩
    ⟨1, 10, defaultStatuses, []⟩ rfl rfl rfl rfl

/-- Concrete Cancelled sprint with both dates set, currently inside its date
window. -/
def cancelledSprint : Sprint :=
  ⟨5, 1, "Sprint Five", some 0, some 10, [], 0, "Cancelled"⟩

/-- C8 counterexample: the pre-save derivation overwrites a Cancelled sprint
whose dates are both set — here to Active — so a Cancelled sprint does NOT
stay Cancelled under the derived-status recomputation on save, contrary to
the claim's terminality part. -/
theorem c8_counterexample :
    cancelledSprint.status = "Cancelled" ∧
    (preSaveSprint 5 cancelledSprint).status = "Active" ∧
    (preSaveSprint 5 cancelledSprint).status ≠ "Cancelled" := by
  refine ⟨rfl, ?_, ?_⟩
  · simp [preSaveSprint, cancelledSprint]
  · intro h
    simp [preSaveSprint, cancelledSprint] at h

/-- C8 amended: on every save, when both dates are present the status is
derived from the current time (Planning before startDate, Active through
endDate, Completed after) regardless of the stored status — so Cancelled is
not terminal; when a date is missing the document is left unchanged; and the
derivation never produces Cancelled on its own. -/
theorem c8_amended_derivation (sp : Sprint) (now : Int) :
    (∀ s e, sp.startDate = some s → sp.endDate = some e →
      (preSaveSprint now sp).status =
        (if now < s then "Planning" else if now ≤ e then "Active" else "Completed")) ∧
    ((sp.startDate = none ∨ sp.endDate = none) → preSaveSprint now sp = sp) ∧
    ((preSaveSprint now sp).status = "Cancelled" → sp.status = "Cancelled") := by
  obtain ⟨i, pj, nm, sd, ed, ti, pp, stt⟩ := sp
  refine ⟨?_, ?_, ?_⟩
  · intro s e hs he
    cases sd <;> cases ed <;> simp_all [preSaveSprint] <;> split_ifs <;> rfl
  · rintro (h | h) <;> cases sd <;> cases ed <;> simp_all [preSaveSprint]
  · cases sd <;> cases ed <;> simp only [preSaveSprint] <;>
      first
        | exact fun h => h
        | (split_ifs <;> simp_all)

/-- C8 witness for the amended theorem: the derivation clause applied to the
concrete Cancelled sprint. -/
theorem c8_amended_witness :
    (preSaveSprint 5 cancelledSprint).status =
      (if (5 : Int) < 0 then "Planning"
       else if (5 : Int) ≤ 10 then "Active" else "Completed") :=
  (c8_amended_derivation cancelledSprint 5).1 0 10 rfl rfl

/-- C9: the progress recomputation is idempotent — running the standalone
updateSprintProgress a second time with no intervening task or membership
change (same store, same clock) reproduces the first run's result exactly:
same returned document and percentage, same persisted store, same cache, and
the same side effects (one identical write, progress broadcast and
invalidation), nothing additional. -/
theorem c9_updateSprintProgress_idempotent
    (now : Int) (role : DocId → DocId → Option String)
    (st : Store) (cache : Cache) (sprintId : DocId) :
    updateSprintProgressRun (noFaults now role)
        (updateSprintProgressRun (noFaults now role) st cache sprintId).cur
        (updateSprintProgressRun (noFaults now role) st cache sprintId).cache sprintId
      = updateSprintProgressRun (noFaults now role) st cache sprintId := by
  cases h : findSprint st sprintId with
  | none =>
    have e1 : updateSprintProgressRun (noFaults now role) st cache sprintId
        = ⟨st, cache, [], .ok none⟩ :=
      updateSprintProgress_none (noFaults now role) 0 st st cache sprintId h
    rw [e1]
    exact updateSprintProgress_none (noFaults now role) 0 st st cache sprintId h
  | some sp =>
    have hid : sp.id = sprintId := by
      have := find?_pred (show st.sprints.find? (fun x => x.id == sprintId) = some sp from h)
      simpa using this
    cases hempty : sp.taskIds.isEmpty with
    | true =>
      have e1 : updateSprintProgressRun (noFaults now role) st cache sprintId
          = ⟨st, cache, [], .ok none⟩ :=
        updateSprintProgress_empty (noFaults now role) 0 st st cache sprintId sp h hempty
      rw [e1]
      exact updateSprintProgress_empty (noFaults now role) 0 st st cache sprintId sp h hempty
    | false =>
      have hpres : ∀ x : Sprint, x.id = sprintId → ((progressPatch (codeProgress st sp.taskIds) (preSaveSprint now { sp with progressPercentage := codeProgress st sp.taskIds }).status) x).id = sprintId :=
        fun x hx => hx
      have e1 : updateSprintProgressRun (noFaults now role) st cache sprintId
          = ⟨updSprint st sprintId (progressPatch (codeProgress st sp.taskIds) (preSaveSprint now { sp with progressPercentage := codeProgress st sp.taskIds }).status), invalidateCache (sprintKey sprintId) cache,
             [.emitP sp.projectId "sprint:progress:updated" (codeProgress st sp.taskIds),
              .inval (sprintKey sprintId)],
             .ok (some (preSaveSprint now { sp with progressPercentage := codeProgress st sp.taskIds }))⟩ :=
        updateSprintProgress_some (noFaults now role) 0 st st cache sprintId sp h hempty rfl
      have hfind2 : findSprint (updSprint st sprintId (progressPatch (codeProgress st sp.taskIds) (preSaveSprint now { sp with progressPercentage := codeProgress st sp.taskIds }).status)) sprintId = some (progressPatch (codeProgress st sp.taskIds) (preSaveSprint now { sp with progressPercentage := codeProgress st sp.taskIds }).status sp) := by
        rw [findSprint_updSprint st sprintId sprintId _ hpres, h]
        simp [hid]
      have e2 : updateSprintProgressRun (noFaults now role) (updSprint st sprintId (progressPatch (codeProgress st sp.taskIds) (preSaveSprint now { sp with progressPercentage := codeProgress st sp.taskIds }).status)) (invalidateCache (sprintKey sprintId) cache) sprintId
          = ⟨updSprint (updSprint st sprintId (progressPatch (codeProgress st sp.taskIds) (preSaveSprint now { sp with progressPercentage := codeProgress st sp.taskIds }).status)) sprintId (progressPatch (codeProgress (updSprint st sprintId (progressPatch (codeProgress st sp.taskIds) (preSaveSprint now { sp with progressPercentage := codeProgress st sp.taskIds }).status)) (progressPatch (codeProgress st sp.taskIds) (preSaveSprint now { sp with progressPercentage := codeProgress st sp.taskIds }).status sp).taskIds) (preSaveSprint now { progressPatch (codeProgress st sp.taskIds) (preSaveSprint now { sp with progressPercentage := codeProgress st sp.taskIds }).status sp with progressPercentage := codeProgress (updSprint st sprintId (progressPatch (codeProgress st sp.taskIds) (preSaveSprint now { sp with progressPercentage := codeProgress st sp.taskIds }).status)) (progressPatch (codeProgress st sp.taskIds) (preSaveSprint now { sp with progressPercentage := codeProgress st sp.taskIds }).status sp).taskIds }).status),
             invalidateCache (sprintKey sprintId) (invalidateCache (sprintKey sprintId) cache),
             [.emitP (progressPatch (codeProgress st sp.taskIds) (preSaveSprint now { sp with progressPercentage := codeProgress st sp.taskIds }).status sp).projectId "sprint:progress:updated" (codeProgress (updSprint st sprintId (progressPatch (codeProgress st sp.taskIds) (preSaveSprint now { sp with progressPercentage := codeProgress st sp.taskIds }).status)) (progressPatch (codeProgress st sp.taskIds) (preSaveSprint now { sp with progressPercentage := codeProgress st sp.taskIds }).status sp).taskIds),
              .inval (sprintKey sprintId)],
             .ok (some (preSaveSprint now { progressPatch (codeProgress st sp.taskIds) (preSaveSprint now { sp with progressPercentage := codeProgress st sp.taskIds }).status sp with progressPercentage := codeProgress (updSprint st sprintId (progressPatch (codeProgress st sp.taskIds) (preSaveSprint now { sp with progressPercentage := codeProgress st sp.taskIds }).status)) (progressPatch (codeProgress st sp.taskIds) (preSaveSprint now { sp with progressPercentage := codeProgress st sp.taskIds }).status sp).taskIds }))⟩ :=
        updateSprintProgress_some (noFaults now role) 0 (updSprint st sprintId (progressPatch (codeProgress st sp.taskIds) (preSaveSprint now { sp with progressPercentage := codeProgress st sp.taskIds }).status)) (updSprint st sprintId (progressPatch (codeProgress st sp.taskIds) (preSaveSprint now { sp with progressPercentage := codeProgress st sp.taskIds }).status)) (invalidateCache (sprintKey sprintId) cache) sprintId
          (progressPatch (codeProgress st sp.taskIds) (preSaveSprint now { sp with progressPercentage := codeProgress st sp.taskIds }).status sp) hfind2 hempty rfl
      have hdoc2 : (preSaveSprint now { progressPatch (codeProgress st sp.taskIds) (preSaveSprint now { sp with progressPercentage := codeProgress st sp.taskIds }).status sp with progressPercentage := codeProgress (updSprint st sprintId (progressPatch (codeProgress st sp.taskIds) (preSaveSprint now { sp with progressPercentage := codeProgress st sp.taskIds }).status)) (progressPatch (codeProgress st sp.taskIds) (preSaveSprint now { sp with progressPercentage := codeProgress st sp.taskIds }).status sp).taskIds }) = (preSaveSprint now { sp with progressPercentage := codeProgress st sp.taskIds }) := by
        have h0 : (preSaveSprint now { progressPatch (codeProgress st sp.taskIds) (preSaveSprint now { sp with progressPercentage := codeProgress st sp.taskIds }).status sp with progressPercentage := codeProgress (updSprint st sprintId (progressPatch (codeProgress st sp.taskIds) (preSaveSprint now { sp with progressPercentage := codeProgress st sp.taskIds }).status)) (progressPatch (codeProgress st sp.taskIds) (preSaveSprint now { sp with progressPercentage := codeProgress st sp.taskIds }).status sp).taskIds })
            = preSaveSprint now { { sp with progressPercentage := codeProgress st sp.taskIds } with
                status := (preSaveSprint now { sp with progressPercentage := codeProgress st sp.taskIds }).status } := rfl
        rw [h0]
        exact preSaveSprint_set_status now { sp with progressPercentage := codeProgress st sp.taskIds }
      have hgg : (fun x => (progressPatch (codeProgress st sp.taskIds) (preSaveSprint now { sp with progressPercentage := codeProgress st sp.taskIds }).status) ((progressPatch (codeProgress st sp.taskIds) (preSaveSprint now { sp with progressPercentage := codeProgress st sp.taskIds }).status) x)) = (progressPatch (codeProgress st sp.taskIds) (preSaveSprint now { sp with progressPercentage := codeProgress st sp.taskIds }).status) := funext fun x => rfl
      have hstore : updSprint (updSprint st sprintId (progressPatch (codeProgress st sp.taskIds) (preSaveSprint now { sp with progressPercentage := codeProgress st sp.taskIds }).status)) sprintId (progressPatch (codeProgress (updSprint st sprintId (progressPatch (codeProgress st sp.taskIds) (preSaveSprint now { sp with progressPercentage := codeProgress st sp.taskIds }).status)) (progressPatch (codeProgress st sp.taskIds) (preSaveSprint now { sp with progressPercentage := codeProgress st sp.taskIds }).status sp).taskIds) (preSaveSprint now { progressPatch (codeProgress st sp.taskIds) (preSaveSprint now { sp with progressPercentage := codeProgress st sp.taskIds }).status sp with progressPercentage := codeProgress (updSprint st sprintId (progressPatch (codeProgress st sp.taskIds) (preSaveSprint now { sp with progressPercentage := codeProgress st sp.taskIds }).status)) (progressPatch (codeProgress st sp.taskIds) (preSaveSprint now { sp with progressPercentage := codeProgress st sp.taskIds }).status sp).taskIds }).status)
          = (updSprint st sprintId (progressPatch (codeProgress st sp.taskIds) (preSaveSprint now { sp with progressPercentage := codeProgress st sp.taskIds }).status)) := by
        have h1 : updSprint (updSprint st sprintId (progressPatch (codeProgress st sp.taskIds) (preSaveSprint now { sp with progressPercentage := codeProgress st sp.taskIds }).status)) sprintId (progressPatch (codeProgress (updSprint st sprintId (progressPatch (codeProgress st sp.taskIds) (preSaveSprint now { sp with progressPercentage := codeProgress st sp.taskIds }).status)) (progressPatch (codeProgress st sp.taskIds) (preSaveSprint now { sp with progressPercentage := codeProgress st sp.taskIds }).status sp).taskIds) (preSaveSprint now { progressPatch (codeProgress st sp.taskIds) (preSaveSprint now { sp with progressPercentage := codeProgress st sp.taskIds }).status sp with progressPercentage := codeProgress (updSprint st sprintId (progressPatch (codeProgress st sp.taskIds) (preSaveSprint now { sp with progressPercentage := codeProgress st sp.taskIds }).status)) (progressPatch (codeProgress st sp.taskIds) (preSaveSprint now { sp with progressPercentage := codeProgress st sp.taskIds }).status sp).taskIds }).status)
            = updSprint (updSprint st sprintId (progressPatch (codeProgress st sp.taskIds) (preSaveSprint now { sp with progressPercentage := codeProgress st sp.taskIds }).status)) sprintId (progressPatch (codeProgress st sp.taskIds) (preSaveSprint now { progressPatch (codeProgress st sp.taskIds) (preSaveSprint now { sp with progressPercentage := codeProgress st sp.taskIds }).status sp with progressPercentage := codeProgress (updSprint st sprintId (progressPatch (codeProgress st sp.taskIds) (preSaveSprint now { sp with progressPercentage := codeProgress st sp.taskIds }).status)) (progressPatch (codeProgress st sp.taskIds) (preSaveSprint now { sp with progressPercentage := codeProgress st sp.taskIds }).status sp).taskIds }).status) := rfl
        rw [h1, hdoc2, updSprint_updSprint st sprintId _ _ hpres, hgg]
      calc updateSprintProgressRun (noFaults now role)
            (updateSprintProgressRun (noFaults now role) st cache sprintId).cur
            (updateSprintProgressRun (noFaults now role) st cache sprintId).cache sprintId
          = updateSprintProgressRun (noFaults now role) (updSprint st sprintId (progressPatch (codeProgress st sp.taskIds) (preSaveSprint now { sp with progressPercentage := codeProgress st sp.taskIds }).status)) (invalidateCache (sprintKey sprintId) cache) sprintId := by rw [e1]
        _ = ⟨updSprint (updSprint st sprintId (progressPatch (codeProgress st sp.taskIds) (preSaveSprint now { sp with progressPercentage := codeProgress st sp.taskIds }).status)) sprintId (progressPatch (codeProgress (updSprint st sprintId (progressPatch (codeProgress st sp.taskIds) (preSaveSprint now { sp with progressPercentage := codeProgress st sp.taskIds }).status)) (progressPatch (codeProgress st sp.taskIds) (preSaveSprint now { sp with progressPercentage := codeProgress st sp.taskIds }).status sp).taskIds) (preSaveSprint now { progressPatch (codeProgress st sp.taskIds) (preSaveSprint now { sp with progressPercentage := codeProgress st sp.taskIds }).status sp with progressPercentage := codeProgress (updSprint st sprintId (progressPatch (codeProgress st sp.taskIds) (preSaveSprint now { sp with progressPercentage := codeProgress st sp.taskIds }).status)) (progressPatch (codeProgress st sp.taskIds) (preSaveSprint now { sp with progressPercentage := codeProgress st sp.taskIds }).status sp).taskIds }).status),
             invalidateCache (sprintKey sprintId) (invalidateCache (sprintKey sprintId) cache),
             [.emitP (progressPatch (codeProgress st sp.taskIds) (preSaveSprint now { sp with progressPercentage := codeProgress st sp.taskIds }).status sp).projectId "sprint:progress:updated" (codeProgress (updSprint st sprintId (progressPatch (codeProgress st sp.taskIds) (preSaveSprint now { sp with progressPercentage := codeProgress st sp.taskIds }).status)) (progressPatch (codeProgress st sp.taskIds) (preSaveSprint now { sp with progressPercentage := codeProgress st sp.taskIds }).status sp).taskIds),
              .inval (sprintKey sprintId)],
             .ok (some (preSaveSprint now { progressPatch (codeProgress st sp.taskIds) (preSaveSprint now { sp with progressPercentage := codeProgress st sp.taskIds }).status sp with progressPercentage := codeProgress (updSprint st sprintId (progressPatch (codeProgress st sp.taskIds) (preSaveSprint now { sp with progressPercentage := codeProgress st sp.taskIds }).status)) (progressPatch (codeProgress st sp.taskIds) (preSaveSprint now { sp with progressPercentage := codeProgress st sp.taskIds }).status sp).taskIds }))⟩ := e2
        _ = ⟨updSprint st sprintId (progressPatch (codeProgress st sp.taskIds) (preSaveSprint now { sp with progressPercentage := codeProgress st sp.taskIds }).status), invalidateCache (sprintKey sprintId) cache,
             [.emitP sp.projectId "sprint:progress:updated" (codeProgress st sp.taskIds),
              .inval (sprintKey sprintId)],
             .ok (some (preSaveSprint now { sp with progressPercentage := codeProgress st sp.taskIds }))⟩ := by
            rw [ProgOut.mk.injEq]
            refine ⟨hstore, invalidateCache_idem _ _, rfl, ?_⟩
            rw [hdoc2]
        _ = updateSprintProgressRun (noFaults now role) st cache sprintId := e1.symm

/-- Concrete store for the spec's end-to-end scenario: project 1 (default
vocabulary) owned by user 10, sprint 2 with no members, task 3 with status
ToDo. -/
def stC3 : Store :=
  ⟨[⟨1, 10, defaultStatuses, [3]⟩],
   [⟨2, 1, "Sprint One", none, none, [], 0, "Planning"⟩],
   [⟨3, 1, "Task One", "ToDo", none, none, none⟩]⟩

/-- Step 1 of the scenario: add task 3 to sprint 2. -/
def c3run1 : OpOut := addTaskToSprint ctxW 10 2 3 stC3 []

/-- Step 2: update task 3's status to Done. -/
def c3run2 : OpOut := updateTask ctxW 10 3 ⟨none, some "Done"⟩ c3run1.store c3run1.cache

/-- Step 3: the manual progress recomputation for sprint 2. -/
def c3run3 : ProgOut := updateSprintProgressRun ctxW c3run2.store c3run2.cache 2

/-- C3: running the spec's end-to-end scenario against the code: after the
add, progress is 0 as expected; but after updating the only member task to
Done and recomputing, the stored progress is still 0, not 100 — the
completion predicate compares against the string Completed, which is not
even a member of the default vocabulary, while the spec-side recomputation
over the terminal label Done yields 100. -/
theorem c3_done_terminal_label_not_counted :
    c3run1.out = .ok (.sprintData 2) ∧
    (findSprint c3run1.store 2).map Sprint.progressPercentage = some 0 ∧
    c3run2.out = .ok (.taskData 3) ∧
    (findTask c3run2.store 3).map Task.status = some "Done" ∧
    c3run3.out.isOk = true ∧
    (findSprint c3run3.cur 2).map Sprint.progressPercentage = some 0 ∧
    (findSprint c3run3.cur 2).map (fun sp => specProgress c3run3.cur sp) = some 100 ∧
    defaultStatuses.contains "Completed" = false := by
  decide

/-- C1: the progress invariant does not survive task-status changes:
updateTask never touches any sprint document (first conjunct — no progress
recompute exists on that path, and the completion predicate used elsewhere
compares to Completed), so after the scenario's status change to Done the
stored progressPercentage of the task's sprint is still 0 while the
specification's formula over the current member tasks requires 100. -/
theorem c1_progress_stale_after_status_change :
    (∀ (ctx : Ctx) (u tid : DocId) (patch : TaskPatch) (st : Store) (cache : Cache),
      (updateTask ctx u tid patch st cache).store.sprints = st.sprints) ∧
    (findTask c3run2.store 3).map Task.status = some "Done" ∧
    (findSprint c3run2.store 2).map Sprint.taskIds = some [3] ∧
    (findSprint c3run2.store 2).map Sprint.progressPercentage = some 0 ∧
    (findSprint c3run2.store 2).map (fun sp => specProgress c3run2.store sp) = some 100 := by
  refine ⟨?_, by decide, by decide, by decide, by decide⟩
  intro ctx u tid patch st cache
  unfold updateTask
  dsimp only
  repeat' split
  all_goals (repeat' split) <;> simp [updTask]

/-- Concrete store for the C7/C4 scenarios: project 1 owned by user 10,
no sprints yet. -/
def stC7 : Store := ⟨[⟨1, 10, defaultStatuses, []⟩], [], []⟩

/-- First list read: populates the query-suffixed cache key with the empty
sprint list. -/
def c7read1 : OpOut := getSprintsForProject ctxW 10 1 stC7 []

/-- Sprint creation for project 1 (new sprint id 7) on the warmed cache. -/
def c7create : OpOut :=
  createSprint ctxW 10 1 7 ⟨"Sprint Seven", "", some 0, some 10⟩ c7read1.store c7read1.cache

/-- Second list read, after the creation. -/
def c7read2 : OpOut := getSprintsForProject ctxW 10 1 c7create.store c7create.cache

/-- C7: createSprint invalidates only the exact key project:1:sprints
(without the wildcard star), which does not match the query-hash-suffixed
list key, so that key survives the creation, the next list read is a cache
hit, and it returns the stale empty list omitting the new sprint 7 — while
an uncached recomputation would return [7]. -/
theorem c7_create_sprint_list_cache_stale :
    c7read1.out = .ok (.sprintsList [] 0) ∧
    c7create.out = .ok (.createdSprint 7) ∧
    (findSprint c7create.store 7).isSome = true ∧
    c7create.effects.contains (.inval (projectSprintsKey 1)) = true ∧
    (c7create.cache.find? (fun kv => kv.1 == projectSprintsListKey 1 "{}")).isSome = true ∧
    c7read2.out = .ok (.sprintsList [] 0) ∧
    (sprintsOfProject c7create.store 1).map (fun sp => sp.id) = [7] := by
  decide

/-- Side effects in the sense of claim C4: cache invalidations, socket
broadcasts and notifications (the transaction markers are not effects). -/
def isSideEffect : Effect → Bool
  | .inval _ => true
  | .emitP _ _ _ => true
  | .emitS _ _ => true
  | .notif _ => true
  | .notifMembers _ => true
  | .commit => false
  | .abort => false

/-- Decides whether a trace performs side effects only after a commit
marker. -/
def noSideEffectBeforeCommit : List Effect → Bool
  | [] => true
  | .commit :: _ => true
  | e :: rest => !isSideEffect e && noSideEffectBeforeCommit rest

/-- Context whose transaction commit (fault site 1 of createSprint) fails. -/
def ctxCommitFault : Ctx := ⟨0, fun site => site == 1, roleNone⟩

/-- The createSprint execution whose commit fails: the transaction is
aborted and rolled back. -/
def c4failRun : OpOut :=
  createSprint ctxCommitFault 10 1 7 ⟨"Sprint Seven", "", some 0, some 10⟩ stC7 []

/-- C4 counterexample: in a successful createSprint run the cache
invalidation and broadcasts execute BEFORE the commit marker, and in a run
whose commit fails (transaction rolled back, store unchanged) those side
effects have still been executed — refuting both halves of the claim. -/
theorem c4_counterexample :
    c7create.out.isOk = true ∧
    noSideEffectBeforeCommit c7create.effects = false ∧
    (c7create.effects.getLast? = some .commit) ∧
    c4failRun.out = .error (.fault 1) ∧
    c4failRun.store = stC7 ∧
    c4failRun.effects.filter isSideEffect ≠ [] := by
  decide

theorem commit_not_mem_progress_effects (ctx : Ctx) (site : Nat)
    (base cur : Store) (cache : Cache) (sid : DocId) :
    Effect.commit ∉ (updateSprintProgress ctx site base cur cache sid).effects := by
  unfold updateSprintProgress
  repeat' split
  all_goals simp

theorem getLast?_commit : ([Effect.commit] : List Effect).getLast? = some Effect.commit := rfl

theorem getLast?_cons_of (e : Effect) (l : List Effect)
    (h : l.getLast? = some Effect.commit) :
    (e :: l).getLast? = some Effect.commit := by
  rw [show e :: l = [e] ++ l from rfl, List.getLast?_append, h]
  rfl

theorem getLast?_append_of (l m : List Effect)
    (h : m.getLast? = some Effect.commit) :
    (l ++ m).getLast? = some Effect.commit := by
  rw [List.getLast?_append, h]
  rfl

theorem exceptIsOk_ok {e a : Type} (x : a) : (Except.ok x : Except e a).isOk = true := rfl

theorem exceptIsOk_error {e a : Type} (x : e) : (Except.error x : Except e a).isOk = false := rfl

theorem c4h_createSprint (ctx : Ctx) (u pid nid : DocId) (inp : SprintInput)
    (st : Store) (cache : Cache) :
    ((createSprint ctx u pid nid inp st cache).out.isOk = true →
      (createSprint ctx u pid nid inp st cache).effects.getLast? = some .commit) ∧
    ((createSprint ctx u pid nid inp st cache).out.isOk = false →
      Effect.commit ∉ (createSprint ctx u pid nid inp st cache).effects) := by
  unfold createSprint
  repeat' split
  all_goals constructor <;> intro h <;> simp_all [Except.isOk, Except.toBool]

theorem c4h_updateSprint (ctx : Ctx) (u sid : DocId) (patch : SprintPatch)
    (st : Store) (cache : Cache) :
    ((updateSprint ctx u sid patch st cache).out.isOk = true →
      (updateSprint ctx u sid patch st cache).effects.getLast? = some .commit) ∧
    ((updateSprint ctx u sid patch st cache).out.isOk = false →
      Effect.commit ∉ (updateSprint ctx u sid patch st cache).effects) := by
  unfold updateSprint
  repeat' split
  all_goals constructor <;> intro h <;> simp_all [Except.isOk, Except.toBool]

theorem c4h_deleteSprint (ctx : Ctx) (u sid : DocId) (st : Store) (cache : Cache) :
    ((deleteSprint ctx u sid st cache).out.isOk = true →
      (deleteSprint ctx u sid st cache).effects.getLast? = some .commit) ∧
    ((deleteSprint ctx u sid st cache).out.isOk = false →
      Effect.commit ∉ (deleteSprint ctx u sid st cache).effects) := by
  unfold deleteSprint
  repeat' split
  all_goals constructor <;> intro h <;> simp_all [Except.isOk, Except.toBool]

set_option maxHeartbeats 2000000 in
theorem c4h_addTaskToSprint (ctx : Ctx) (u sid tid : DocId) (st : Store) (cache : Cache) :
    ((addTaskToSprint ctx u sid tid st cache).out.isOk = true →
      (addTaskToSprint ctx u sid tid st cache).effects.getLast? = some .commit) ∧
    ((addTaskToSprint ctx u sid tid st cache).out.isOk = false →
      Effect.commit ∉ (addTaskToSprint ctx u sid tid st cache).effects) := by
  unfold addTaskToSprint
  repeat' split
  all_goals constructor <;> intro h <;>
    (try simp_all [exceptIsOk_ok, exceptIsOk_error, commit_not_mem_progress_effects,
      List.getLast?_concat, getLast?_commit, getLast?_cons_of, getLast?_append_of,
      apply_ite OpOut.out, apply_ite OpOut.effects, apply_ite Except.isOk,
      apply_ite (fun l : List Effect => Effect.commit ∈ l),
      apply_ite (fun l : List Effect => l.getLast?)]) <;>
    (repeat' split at h) <;>
    (try simp_all [exceptIsOk_ok, exceptIsOk_error, commit_not_mem_progress_effects,
      List.getLast?_concat, getLast?_commit, getLast?_cons_of, getLast?_append_of,
      apply_ite OpOut.out, apply_ite OpOut.effects, apply_ite Except.isOk,
      apply_ite (fun l : List Effect => Effect.commit ∈ l),
      apply_ite (fun l : List Effect => l.getLast?)])

set_option maxHeartbeats 2000000 in
theorem c4h_removeTaskFromSprint (ctx : Ctx) (u sid tid : DocId) (st : Store) (cache : Cache) :
    ((removeTaskFromSprint ctx u sid tid st cache).out.isOk = true →
      (removeTaskFromSprint ctx u sid tid st cache).effects.getLast? = some .commit) ∧
    ((removeTaskFromSprint ctx u sid tid st cache).out.isOk = false →
      Effect.commit ∉ (removeTaskFromSprint ctx u sid tid st cache).effects) := by
  unfold removeTaskFromSprint
  repeat' split
  all_goals constructor <;> intro h <;>
    (try simp_all [exceptIsOk_ok, exceptIsOk_error, commit_not_mem_progress_effects,
      List.getLast?_concat, getLast?_commit, getLast?_cons_of, getLast?_append_of,
      apply_ite OpOut.out, apply_ite OpOut.effects, apply_ite Except.isOk,
      apply_ite (fun l : List Effect => Effect.commit ∈ l),
      apply_ite (fun l : List Effect => l.getLast?)]) <;>
    (repeat' split at h) <;>
    (try simp_all [exceptIsOk_ok, exceptIsOk_error, commit_not_mem_progress_effects,
      List.getLast?_concat, getLast?_commit, getLast?_cons_of, getLast?_append_of,
      apply_ite OpOut.out, apply_ite OpOut.effects, apply_ite Except.isOk,
      apply_ite (fun l : List Effect => Effect.commit ∈ l),
      apply_ite (fun l : List Effect => l.getLast?)])

/-- C4 amended: for every Coordinator operation, cache invalidations and
broadcasts are executed inside the transaction BEFORE the commit — in every
successful execution the commit marker is the single final event of the
trace (so every side effect precedes it), and a failed execution never
commits; an execution that errors before reaching the side-effect
statements executes none of them, but one that fails at commit has already
executed them (see the counterexample). -/
theorem c4_amended_side_effects_inside_transaction
    (ctx : Ctx) (u pid nid sid tid : DocId) (inp : SprintInput)
    (patch : SprintPatch) (st : Store) (cache : Cache) :
    (((createSprint ctx u pid nid inp st cache).out.isOk = true →
        (createSprint ctx u pid nid inp st cache).effects.getLast? = some .commit) ∧
      ((createSprint ctx u pid nid inp st cache).out.isOk = false →
        Effect.commit ∉ (createSprint ctx u pid nid inp st cache).effects)) ∧
    (((updateSprint ctx u sid patch st cache).out.isOk = true →
        (updateSprint ctx u sid patch st cache).effects.getLast? = some .commit) ∧
      ((updateSprint ctx u sid patch st cache).out.isOk = false →
        Effect.commit ∉ (updateSprint ctx u sid patch st cache).effects)) ∧
    (((deleteSprint ctx u sid st cache).out.isOk = true →
        (deleteSprint ctx u sid st cache).effects.getLast? = some .commit) ∧
      ((deleteSprint ctx u sid st cache).out.isOk = false →
        Effect.commit ∉ (deleteSprint ctx u sid st cache).effects)) ∧
    (((addTaskToSprint ctx u sid tid st cache).out.isOk = true →
        (addTaskToSprint ctx u sid tid st cache).effects.getLast? = some .commit) ∧
      ((addTaskToSprint ctx u sid tid st cache).out.isOk = false →
        Effect.commit ∉ (addTaskToSprint ctx u sid tid st cache).effects)) ∧
    (((removeTaskFromSprint ctx u sid tid st cache).out.isOk = true →
        (removeTaskFromSprint ctx u sid tid st cache).effects.getLast? = some .commit) ∧
      ((removeTaskFromSprint ctx u sid tid st cache).out.isOk = false →
        Effect.commit ∉ (removeTaskFromSprint ctx u sid tid st cache).effects)) :=
  ⟨c4h_createSprint ctx u pid nid inp st cache,
   c4h_updateSprint ctx u sid patch st cache,
   c4h_deleteSprint ctx u sid st cache,
   c4h_addTaskToSprint ctx u sid tid st cache,
   c4h_removeTaskFromSprint ctx u sid tid st cache⟩

/-- C4 amended witness: the createSprint clause applied to the concrete
successful run of the C7 scenario. -/
theorem c4_amended_witness :
    (createSprint ctxW 10 1 7 ⟨"Sprint Seven", "", some 0, some 10⟩ c7read1.store
      c7read1.cache).effects.getLast? = some .commit :=
  (c4_amended_side_effects_inside_transaction ctxW 10 1 7 2 3
    ⟨"Sprint Seven", "", some 0, some 10⟩ ⟨none, none, none⟩
    c7read1.store c7read1.cache).1.1 (by decide)

theorem c6h_createSprint (ctx : Ctx) (u pid nid : DocId) (inp : SprintInput)
    (st : Store) (cache : Cache) :
    (createSprint ctx u pid nid inp st cache).out.isOk = true ∨
      (createSprint ctx u pid nid inp st cache).store = st := by
  unfold createSprint
  repeat' split
  all_goals simp [exceptIsOk_ok, exceptIsOk_error]

theorem c6h_updateSprint (ctx : Ctx) (u sid : DocId) (patch : SprintPatch)
    (st : Store) (cache : Cache) :
    (updateSprint ctx u sid patch st cache).out.isOk = true ∨
      (updateSprint ctx u sid patch st cache).store = st := by
  unfold updateSprint
  repeat' split
  all_goals simp [exceptIsOk_ok, exceptIsOk_error]

theorem c6h_deleteSprint (ctx : Ctx) (u sid : DocId) (st : Store) (cache : Cache) :
    (deleteSprint ctx u sid st cache).out.isOk = true ∨
      (deleteSprint ctx u sid st cache).store = st := by
  unfold deleteSprint
  repeat' split
  all_goals simp [exceptIsOk_ok, exceptIsOk_error]

set_option maxHeartbeats 2000000 in
theorem c6h_addTaskToSprint (ctx : Ctx) (u sid tid : DocId) (st : Store) (cache : Cache) :
    (addTaskToSprint ctx u sid tid st cache).out.isOk = true ∨
      (addTaskToSprint ctx u sid tid st cache).store = st := by
  unfold addTaskToSprint
  repeat' split
  all_goals
    simp [exceptIsOk_ok, exceptIsOk_error, apply_ite OpOut.out, apply_ite OpOut.store,
      apply_ite Except.isOk, ite_self]
  all_goals (try ((repeat' split) <;> simp_all [exceptIsOk_ok, exceptIsOk_error]))
  all_goals tauto

set_option maxHeartbeats 2000000 in
theorem c6h_removeTaskFromSprint (ctx : Ctx) (u sid tid : DocId) (st : Store) (cache : Cache) :
    (removeTaskFromSprint ctx u sid tid st cache).out.isOk = true ∨
      (removeTaskFromSprint ctx u sid tid st cache).store = st := by
  unfold removeTaskFromSprint
  repeat' split
  all_goals
    simp [exceptIsOk_ok, exceptIsOk_error, apply_ite OpOut.out, apply_ite OpOut.store,
      apply_ite Except.isOk, ite_self]
  all_goals (try ((repeat' split) <;> simp_all [exceptIsOk_ok, exceptIsOk_error]))
  all_goals tauto

/-- C6: transaction-boundary atomicity — for every multi-entity Coordinator
operation, whatever error is raised inside the boundary (validation, missing
entities, permission, any injected write failure, or a failing commit), the
committed store after the operation equals the store from before it: every
session write is rolled back.  The error value itself is returned unchanged
to the HTTP layer by construction of the catch blocks (abortTransaction then
next(error)). -/
theorem c6_rollback_on_error
    (ctx : Ctx) (u pid nid sid tid : DocId) (inp : SprintInput)
    (patch : SprintPatch) (st : Store) (cache : Cache) :
    ((createSprint ctx u pid nid inp st cache).out.isOk = false →
      (createSprint ctx u pid nid inp st cache).store = st) ∧
    ((updateSprint ctx u sid patch st cache).out.isOk = false →
      (updateSprint ctx u sid patch st cache).store = st) ∧
    ((deleteSprint ctx u sid st cache).out.isOk = false →
      (deleteSprint ctx u sid st cache).store = st) ∧
    ((addTaskToSprint ctx u sid tid st cache).out.isOk = false →
      (addTaskToSprint ctx u sid tid st cache).store = st) ∧
    ((removeTaskFromSprint ctx u sid tid st cache).out.isOk = false →
      (removeTaskFromSprint ctx u sid tid st cache).store = st) := by
  refine ⟨fun h => ?_, fun h => ?_, fun h => ?_, fun h => ?_, fun h => ?_⟩
  · rcases c6h_createSprint ctx u pid nid inp st cache with hok | hst
    · rw [h] at hok; exact absurd hok (by simp)
    · exact hst
  · rcases c6h_updateSprint ctx u sid patch st cache with hok | hst
    · rw [h] at hok; exact absurd hok (by simp)
    · exact hst
  · rcases c6h_deleteSprint ctx u sid st cache with hok | hst
    · rw [h] at hok; exact absurd hok (by simp)
    · exact hst
  · rcases c6h_addTaskToSprint ctx u sid tid st cache with hok | hst
    · rw [h] at hok; exact absurd hok (by simp)
    · exact hst
  · rcases c6h_removeTaskFromSprint ctx u sid tid st cache with hok | hst
    · rw [h] at hok; exact absurd hok (by simp)
    · exact hst

/-- C6 witness: the addTaskToSprint clause at a concrete erroring input — a
commit failure after all four writes of a displacement run rolls the store
back to its initial contents. -/
theorem c6_witness :
    (addTaskToSprint ⟨0, fun site => site == 4, roleNone⟩ 10 2 3 stC3 []).store = stC3 :=
  (c6_rollback_on_error ⟨0, fun site => site == 4, roleNone⟩ 10 1 7 2 3
    ⟨"Sprint Seven", "", some 0, some 10⟩ ⟨none, none, none⟩ stC3 []).2.2.2.1
    (by decide)

theorem findSprint_id {s : Store} {j : DocId} {sp : Sprint}
    (h : findSprint s j = some sp) : sp.id = j := by
  have := find?_pred (show s.sprints.find? (fun x => x.id == j) = some sp from h)
  simpa using this

theorem findTask_id {s : Store} {j : DocId} {t : Task}
    (h : findTask s j = some t) : t.id = j := by
  have := find?_pred (show s.tasks.find? (fun x => x.id == j) = some t from h)
  simpa using this

theorem findSprint_updSprint_other (s : Store) (i j : DocId) (f : Sprint → Sprint)
    (hne : j ≠ i) (hf : ∀ sp, sp.id = i → (f sp).id = i) :
    findSprint (updSprint s i f) j = findSprint s j := by
  rw [findSprint_updSprint s i j f hf]
  cases hq : findSprint s j with
  | none => rfl
  | some sp =>
    have hid : sp.id = j := findSprint_id hq
    simp [hid, hne]

theorem findSprint_updSprint_self {s : Store} {i : DocId} {sp : Sprint}
    (f : Sprint → Sprint) (h : findSprint s i = some sp)
    (hf : ∀ x, x.id = i → (f x).id = i) :
    findSprint (updSprint s i f) i = some (f sp) := by
  rw [findSprint_updSprint s i i f hf, h]
  have hid : sp.id = i := findSprint_id h
  simp [hid]

theorem findTask_updTask_other (s : Store) (i j : DocId) (f : Task → Task)
    (hne : j ≠ i) (hf : ∀ t, t.id = i → (f t).id = i) :
    findTask (updTask s i f) j = findTask s j := by
  rw [findTask_updTask s i j f hf]
  cases hq : findTask s j with
  | none => rfl
  | some t =>
    have hid : t.id = j := findTask_id hq
    simp [hid, hne]

theorem findTask_updTask_self {s : Store} {i : DocId} {t : Task}
    (f : Task → Task) (h : findTask s i = some t)
    (hf : ∀ x, x.id = i → (f x).id = i) :
    findTask (updTask s i f) i = some (f t) := by
  rw [findTask_updTask s i i f hf, h]
  have hid : t.id = i := findTask_id h
  simp [hid]

theorem progressPatch_taskIds (p : Nat) (d : String) (sp : Sprint) :
    (progressPatch p d sp).taskIds = sp.taskIds := rfl

theorem progressPatch_pres (p : Nat) (d : String) (i : DocId) :
    ∀ x : Sprint, x.id = i → (progressPatch p d x).id = i := fun _ hx => hx

theorem updateSprintProgress_cur_tasks (ctx : Ctx) (site : Nat) (base cur : Store)
    (cache : Cache) (sid : DocId) :
    (updateSprintProgress ctx site base cur cache sid).cur.tasks = cur.tasks := by
  unfold updateSprintProgress
  repeat' split
  all_goals rfl

theorem updateSprintProgress_cur_findTask (ctx : Ctx) (site : Nat) (base cur : Store)
    (cache : Cache) (sid j : DocId) :
    findTask (updateSprintProgress ctx site base cur cache sid).cur j = findTask cur j := by
  unfold findTask
  rw [updateSprintProgress_cur_tasks]

theorem updateSprintProgress_cur_findSprint_taskIds (ctx : Ctx) (site : Nat)
    (base cur : Store) (cache : Cache) (sid j : DocId) :
    (findSprint (updateSprintProgress ctx site base cur cache sid).cur j).map Sprint.taskIds
      = (findSprint cur j).map Sprint.taskIds := by
  unfold updateSprintProgress
  repeat' split
  all_goals dsimp only
  all_goals try rfl
  rw [findSprint_updSprint cur sid j _ (progressPatch_pres _ _ _)]
  cases hq : findSprint cur j with
  | none => rfl
  | some sp =>
    by_cases hb : sp.id = sid <;> simp [hb, progressPatch_taskIds]

theorem noFaults_faults (now : Int) (role : DocId → DocId → Option String) (n : Nat) :
    (noFaults now role).faults n = false := rfl

/-- Concrete store for the C2 counterexample: project 1 owned by user 10;
sprint 2 holds tasks 3 (Done) and 4 (ToDo) with correct progress 50; sprint
5 is empty with progress 0. -/
def stC2 : Store :=
  ⟨[⟨1, 10, defaultStatuses, [3, 4]⟩],
   [⟨2, 1, "Sprint Two", none, none, [3, 4], 50, "Planning"⟩,
    ⟨5, 1, "Sprint Five", none, none, [], 0, "Planning"⟩],
   [⟨3, 1, "Task Three", "Done", some 2, none, none⟩,
    ⟨4, 1, "Task Four", "ToDo", some 2, none, none⟩]⟩

/-- Moving task 3 from sprint 2 to sprint 5. -/
def c2run : OpOut := addTaskToSprint ctxW 10 5 3 stC2 []

/-- C2 counterexample: the displacement moves the membership and the task
pointer correctly, but neither sprint's progressPercentage is recomputed to
the correct value over its new membership: the losing sprint 2 keeps its old
50 (correct value 0 — its remaining task is ToDo) because the code never
recomputes it, and the gaining sprint 5 keeps 0 (correct value 100 — its
member is Done) because the recompute re-reads the pre-transaction
membership without the session (and counts the string Completed). -/
theorem c2_counterexample :
    c2run.out.isOk = true ∧
    (findSprint c2run.store 2).map Sprint.taskIds = some [4] ∧
    (findSprint c2run.store 5).map Sprint.taskIds = some [3] ∧
    (findTask c2run.store 3).map Task.sprintId = some (some 5) ∧
    (findSprint c2run.store 2).map Sprint.progressPercentage = some 50 ∧
    (findSprint c2run.store 2).map (fun sp => specProgress c2run.store sp) = some 0 ∧
    (findSprint c2run.store 5).map Sprint.progressPercentage = some 0 ∧
    (findSprint c2run.store 5).map (fun sp => specProgress c2run.store sp) = some 100 := by
  decide

/-- C2 amended: when a task currently belonging to a different sprint A of
the same project is added to sprint B (no write faults), the operation
succeeds, A's member list afterwards is its old list with the task filtered
out, B's member list contains the task, and the task's sprintId points to B;
the progress values, however, are NOT recomputed to the new memberships (see
the counterexample). -/
theorem c2_amended_membership_moves
    (now : Int) (role : DocId → DocId → Option String)
    (u A B T : DocId) (st : Store) (cache : Cache)
    (sB : Sprint) (proj : Project) (task : Task) (sA : Sprint)
    (hB : findSprint st B = some sB)
    (hproj : findProject st sB.projectId = some proj)
    (hperm : hasProjectPermission (noFaults now role) proj u = true)
    (hT : findTask st T = some task)
    (htp : task.projectId = proj.id)
    (hcur : task.sprintId = some A)
    (hAB : A ≠ B)
    (hA : findSprint st A = some sA) :
    (addTaskToSprint (noFaults now role) u B T st cache).out.isOk = true ∧
    (findSprint (addTaskToSprint (noFaults now role) u B T st cache).store A).map
        Sprint.taskIds = some (sA.taskIds.filter (fun x => x != T)) ∧
    (findSprint (addTaskToSprint (noFaults now role) u B T st cache).store B).map
        (fun sp => sp.taskIds.contains T) = some true ∧
    (findTask (addTaskToSprint (noFaults now role) u B T st cache).store T).map
        Task.sprintId = some (some B) := by
  have hidB : sB.id = B := findSprint_id hB
  have hidA : sA.id = A := findSprint_id hA
  have hABb : (A != B) = true := by simpa [bne_iff_ne] using hAB
  have hBA : B ≠ A := fun hq => hAB hq.symm
  have hfA : ∀ x : Sprint, x.id = A → ((fun x => preSaveSprint (noFaults now role).now { id := sA.id, projectId := sA.projectId, name := sA.name, startDate := sA.startDate, endDate := sA.endDate, taskIds := List.filter (fun tId => tId != T) sA.taskIds, progressPercentage := sA.progressPercentage, status := sA.status }) x).id = A := fun x hx => by
    rw [preSaveSprint_id]
    exact hidA
  have hfB : ∀ x : Sprint, x.id = B → ((fun x => preSaveSprint (noFaults now role).now { id := sB.id, projectId := sB.projectId, name := sB.name, startDate := sB.startDate, endDate := sB.endDate, taskIds := sB.taskIds ++ [T], progressPercentage := sB.progressPercentage, status := sB.status }) x).id = B := fun x hx => by
    rw [preSaveSprint_id]
    exact hidB
  have hgT : ∀ x : Task, x.id = T → ((fun t => ({ id := t.id, projectId := t.projectId, title := t.title, status := t.status, sprintId := some B, assignedTo := t.assignedTo, endDate := t.endDate } : Task)) x).id = T := fun x hx => hx
  simp only [addTaskToSprint, hB, hproj, hperm, hT, hcur, hA, htp, bne_self_eq_false,
    noFaults_faults, hABb, Bool.not_true, Bool.false_eq_true, if_false, if_true,
    Bool.and_false, ite_false, ite_true]
  by_cases hin : sB.taskIds.contains T = true
  · simp only [hin, ite_true, if_true, eq_self_iff_true]
    have hA3 : findSprint (updTask (updSprint st A (fun x => preSaveSprint (noFaults now role).now { id := sA.id, projectId := sA.projectId, name := sA.name, startDate := sA.startDate, endDate := sA.endDate, taskIds := List.filter (fun tId => tId != T) sA.taskIds, progressPercentage := sA.progressPercentage, status := sA.status })) T (fun t => ({ id := t.id, projectId := t.projectId, title := t.title, status := t.status, sprintId := some B, assignedTo := t.assignedTo, endDate := t.endDate } : Task))) A = some ((fun x => preSaveSprint (noFaults now role).now { id := sA.id, projectId := sA.projectId, name := sA.name, startDate := sA.startDate, endDate := sA.endDate, taskIds := List.filter (fun tId => tId != T) sA.taskIds, progressPercentage := sA.progressPercentage, status := sA.status }) sA) := by
      rw [findSprint_updTask]
      exact findSprint_updSprint_self _ hA hfA
    have hB3 : findSprint (updTask (updSprint st A (fun x => preSaveSprint (noFaults now role).now { id := sA.id, projectId := sA.projectId, name := sA.name, startDate := sA.startDate, endDate := sA.endDate, taskIds := List.filter (fun tId => tId != T) sA.taskIds, progressPercentage := sA.progressPercentage, status := sA.status })) T (fun t => ({ id := t.id, projectId := t.projectId, title := t.title, status := t.status, sprintId := some B, assignedTo := t.assignedTo, endDate := t.endDate } : Task))) B = some sB := by
      rw [findSprint_updTask]
      rw [findSprint_updSprint_other st A B _ hBA hfA]
      exact hB
    have hT3 : findTask (updTask (updSprint st A (fun x => preSaveSprint (noFaults now role).now { id := sA.id, projectId := sA.projectId, name := sA.name, startDate := sA.startDate, endDate := sA.endDate, taskIds := List.filter (fun tId => tId != T) sA.taskIds, progressPercentage := sA.progressPercentage, status := sA.status })) T (fun t => ({ id := t.id, projectId := t.projectId, title := t.title, status := t.status, sprintId := some B, assignedTo := t.assignedTo, endDate := t.endDate } : Task))) T = some ((fun t => ({ id := t.id, projectId := t.projectId, title := t.title, status := t.status, sprintId := some B, assignedTo := t.assignedTo, endDate := t.endDate } : Task)) task) :=
      findTask_updTask_self _ hT hgT
    cases hempty : sB.taskIds.isEmpty with
    | true =>
      exfalso
      cases hq : sB.taskIds with
      | nil => rw [hq] at hin; simp at hin
      | cons a t => rw [hq] at hempty; simp [List.isEmpty] at hempty
    | false =>
      rw [updateSprintProgress_some (noFaults now role) 3 st
        (updTask (updSprint st A (fun x => preSaveSprint (noFaults now role).now { id := sA.id, projectId := sA.projectId, name := sA.name, startDate := sA.startDate, endDate := sA.endDate, taskIds := List.filter (fun tId => tId != T) sA.taskIds, progressPercentage := sA.progressPercentage, status := sA.status })) T (fun t => ({ id := t.id, projectId := t.projectId, title := t.title, status := t.status, sprintId := some B, assignedTo := t.assignedTo, endDate := t.endDate } : Task))) (invalidateCache (sprintKey A) cache) B sB hB hempty rfl]
      dsimp only
      refine ⟨rfl, ?_, ?_, ?_⟩
      · rw [findSprint_updSprint_other _ B A _ hAB (progressPatch_pres _ _ _), hA3]
        simp [preSaveSprint_taskIds]
      · rw [findSprint_updSprint_self _ hB3 (progressPatch_pres _ _ _)]
        simpa [progressPatch_taskIds] using hin
      · rw [findTask_updSprint, hT3]
        rfl
  · have hinb : sB.taskIds.contains T = false := by
      cases hq : sB.taskIds.contains T
      · rfl
      · exact absurd hq hin
    simp only [hinb, Bool.false_eq_true, ite_false, if_false]
    have hB2 : findSprint (updSprint (updSprint st A (fun x => preSaveSprint (noFaults now role).now { id := sA.id, projectId := sA.projectId, name := sA.name, startDate := sA.startDate, endDate := sA.endDate, taskIds := List.filter (fun tId => tId != T) sA.taskIds, progressPercentage := sA.progressPercentage, status := sA.status })) B (fun x => preSaveSprint (noFaults now role).now { id := sB.id, projectId := sB.projectId, name := sB.name, startDate := sB.startDate, endDate := sB.endDate, taskIds := sB.taskIds ++ [T], progressPercentage := sB.progressPercentage, status := sB.status })) B = some ((fun x => preSaveSprint (noFaults now role).now { id := sB.id, projectId := sB.projectId, name := sB.name, startDate := sB.startDate, endDate := sB.endDate, taskIds := sB.taskIds ++ [T], progressPercentage := sB.progressPercentage, status := sB.status }) sB) := by
      have h0 : findSprint (updSprint st A (fun x => preSaveSprint (noFaults now role).now { id := sA.id, projectId := sA.projectId, name := sA.name, startDate := sA.startDate, endDate := sA.endDate, taskIds := List.filter (fun tId => tId != T) sA.taskIds, progressPercentage := sA.progressPercentage, status := sA.status })) B = some sB := by
        rw [findSprint_updSprint_other st A B _ hBA hfA]
        exact hB
      exact findSprint_updSprint_self _ h0 hfB
    have hA3 : findSprint (updTask (updSprint (updSprint st A (fun x => preSaveSprint (noFaults now role).now { id := sA.id, projectId := sA.projectId, name := sA.name, startDate := sA.startDate, endDate := sA.endDate, taskIds := List.filter (fun tId => tId != T) sA.taskIds, progressPercentage := sA.progressPercentage, status := sA.status })) B (fun x => preSaveSprint (noFaults now role).now { id := sB.id, projectId := sB.projectId, name := sB.name, startDate := sB.startDate, endDate := sB.endDate, taskIds := sB.taskIds ++ [T], progressPercentage := sB.progressPercentage, status := sB.status })) T (fun t => ({ id := t.id, projectId := t.projectId, title := t.title, status := t.status, sprintId := some B, assignedTo := t.assignedTo, endDate := t.endDate } : Task))) A = some ((fun x => preSaveSprint (noFaults now role).now { id := sA.id, projectId := sA.projectId, name := sA.name, startDate := sA.startDate, endDate := sA.endDate, taskIds := List.filter (fun tId => tId != T) sA.taskIds, progressPercentage := sA.progressPercentage, status := sA.status }) sA) := by
      rw [findSprint_updTask]
      rw [findSprint_updSprint_other _ B A _ hAB hfB]
      exact findSprint_updSprint_self _ hA hfA
    have hB3 : findSprint (updTask (updSprint (updSprint st A (fun x => preSaveSprint (noFaults now role).now { id := sA.id, projectId := sA.projectId, name := sA.name, startDate := sA.startDate, endDate := sA.endDate, taskIds := List.filter (fun tId => tId != T) sA.taskIds, progressPercentage := sA.progressPercentage, status := sA.status })) B (fun x => preSaveSprint (noFaults now role).now { id := sB.id, projectId := sB.projectId, name := sB.name, startDate := sB.startDate, endDate := sB.endDate, taskIds := sB.taskIds ++ [T], progressPercentage := sB.progressPercentage, status := sB.status })) T (fun t => ({ id := t.id, projectId := t.projectId, title := t.title, status := t.status, sprintId := some B, assignedTo := t.assignedTo, endDate := t.endDate } : Task))) B = some ((fun x => preSaveSprint (noFaults now role).now { id := sB.id, projectId := sB.projectId, name := sB.name, startDate := sB.startDate, endDate := sB.endDate, taskIds := sB.taskIds ++ [T], progressPercentage := sB.progressPercentage, status := sB.status }) sB) := by
      rw [findSprint_updTask]
      exact hB2
    have hT3 : findTask (updTask (updSprint (updSprint st A (fun x => preSaveSprint (noFaults now role).now { id := sA.id, projectId := sA.projectId, name := sA.name, startDate := sA.startDate, endDate := sA.endDate, taskIds := List.filter (fun tId => tId != T) sA.taskIds, progressPercentage := sA.progressPercentage, status := sA.status })) B (fun x => preSaveSprint (noFaults now role).now { id := sB.id, projectId := sB.projectId, name := sB.name, startDate := sB.startDate, endDate := sB.endDate, taskIds := sB.taskIds ++ [T], progressPercentage := sB.progressPercentage, status := sB.status })) T (fun t => ({ id := t.id, projectId := t.projectId, title := t.title, status := t.status, sprintId := some B, assignedTo := t.assignedTo, endDate := t.endDate } : Task))) T = some ((fun t => ({ id := t.id, projectId := t.projectId, title := t.title, status := t.status, sprintId := some B, assignedTo := t.assignedTo, endDate := t.endDate } : Task)) task) :=
      findTask_updTask_self _ hT hgT
    cases hempty : sB.taskIds.isEmpty with
    | true =>
      rw [updateSprintProgress_empty (noFaults now role) 3 st
        (updTask (updSprint (updSprint st A (fun x => preSaveSprint (noFaults now role).now { id := sA.id, projectId := sA.projectId, name := sA.name, startDate := sA.startDate, endDate := sA.endDate, taskIds := List.filter (fun tId => tId != T) sA.taskIds, progressPercentage := sA.progressPercentage, status := sA.status })) B (fun x => preSaveSprint (noFaults now role).now { id := sB.id, projectId := sB.projectId, name := sB.name, startDate := sB.startDate, endDate := sB.endDate, taskIds := sB.taskIds ++ [T], progressPercentage := sB.progressPercentage, status := sB.status })) T (fun t => ({ id := t.id, projectId := t.projectId, title := t.title, status := t.status, sprintId := some B, assignedTo := t.assignedTo, endDate := t.endDate } : Task))) (invalidateCache (sprintKey A) cache) B sB hB hempty]
      dsimp only
      refine ⟨rfl, ?_, ?_, ?_⟩
      · rw [hA3]
        simp [preSaveSprint_taskIds]
      · rw [hB3]
        simp [preSaveSprint_taskIds, contains_iff_mem]
      · rw [hT3]
        rfl
    | false =>
      rw [updateSprintProgress_some (noFaults now role) 3 st
        (updTask (updSprint (updSprint st A (fun x => preSaveSprint (noFaults now role).now { id := sA.id, projectId := sA.projectId, name := sA.name, startDate := sA.startDate, endDate := sA.endDate, taskIds := List.filter (fun tId => tId != T) sA.taskIds, progressPercentage := sA.progressPercentage, status := sA.status })) B (fun x => preSaveSprint (noFaults now role).now { id := sB.id, projectId := sB.projectId, name := sB.name, startDate := sB.startDate, endDate := sB.endDate, taskIds := sB.taskIds ++ [T], progressPercentage := sB.progressPercentage, status := sB.status })) T (fun t => ({ id := t.id, projectId := t.projectId, title := t.title, status := t.status, sprintId := some B, assignedTo := t.assignedTo, endDate := t.endDate } : Task))) (invalidateCache (sprintKey A) cache) B sB hB hempty rfl]
      dsimp only
      refine ⟨rfl, ?_, ?_, ?_⟩
      · rw [findSprint_updSprint_other _ B A _ hAB (progressPatch_pres _ _ _), hA3]
        simp [preSaveSprint_taskIds]
      · rw [findSprint_updSprint_self _ hB3 (progressPatch_pres _ _ _)]
        simp [progressPatch_taskIds, preSaveSprint_taskIds, contains_iff_mem]
      · rw [findTask_updSprint, hT3]
        rfl

/-- C2 amended witness: the amended theorem applied to the concrete C2
store. -/
theorem c2_amended_witness :
    (addTaskToSprint (noFaults 0 roleNone) 10 5 3 stC2 []).out.isOk = true :=
  (c2_amended_membership_moves 0 roleNone 10 2 5 3 stC2 []
    ⟨5, 1, "Sprint Five", none, none, [], 0, "Planning"⟩
    ⟨1, 10, defaultStatuses, [3, 4]⟩
    ⟨3, 1, "Task Three", "Done", some 2, none, none⟩
    ⟨2, 1, "Sprint Two", none, none, [3, 4], 50, "Planning"⟩
    rfl rfl rfl rfl rfl rfl (by decide) rfl).1

/-- Concrete store for the C5 counterexample: task 3 belongs to sprint 2;
sprint 9 exists and is empty. -/
def stC5 : Store :=
  ⟨[⟨1, 10, defaultStatuses, [3]⟩],
   [⟨2, 1, "Sprint Two", none, none, [3], 0, "Planning"⟩,
    ⟨9, 1, "Sprint Nine", none, none, [], 0, "Planning"⟩],
   [⟨3, 1, "Task Three", "ToDo", some 2, none, none⟩]⟩

/-- C5 counterexample: removeTaskFromSprint called with sprint 9, a sprint
the task does not belong to, clears task 3's sprintId unconditionally while
sprint 2's member list still contains 3 — the operation completes
successfully and breaks referential symmetry. -/
theorem c5_counterexample :
    refSymB stC5 = true ∧
    (removeTaskFromSprint ctxW 10 9 3 stC5 []).out.isOk = true ∧
    refSymB (removeTaskFromSprint ctxW 10 9 3 stC5 []).store = false := by
  decide

theorem refSym_updSprint_keep (s : Store) (i : DocId) (f : Sprint → Sprint)
    (hid : ∀ sp, (f sp).id = sp.id) (htk : ∀ sp, (f sp).taskIds = sp.taskIds)
    (h : refSym s) : refSym (updSprint s i f) := by
  intro t ht sp' hsp'
  have ht0 : t ∈ s.tasks := ht
  have hsp0 : sp' ∈ (updSprint s i f).sprints := hsp'
  simp only [updSprint, List.mem_map] at hsp0
  rcases hsp0 with ⟨sp, hmem, hrw⟩
  by_cases hc : sp.id = i
  · have hr : sp' = f sp := by rw [← hrw]; simp [hc]
    rw [hr, hid, htk]
    exact h t ht0 sp hmem
  · have hr : sp' = sp := by rw [← hrw]; simp [hc]
    rw [hr]
    exact h t ht0 sp hmem

theorem refSym_updTask_keep (s : Store) (i : DocId) (f : Task → Task)
    (hid : ∀ t, (f t).id = t.id) (hsp : ∀ t, (f t).sprintId = t.sprintId)
    (h : refSym s) : refSym (updTask s i f) := by
  intro t' ht' sp hmem
  have hsp0 : sp ∈ s.sprints := hmem
  simp only [updTask, List.mem_map] at ht'
  rcases ht' with ⟨t, hmt, hrw⟩
  by_cases hc : t.id = i
  · have hr : t' = f t := by rw [← hrw]; simp [hc]
    rw [hr, hid, hsp]
    exact h t hmt sp hsp0
  · have hr : t' = t := by rw [← hrw]; simp [hc]
    rw [hr]
    exact h t hmt sp hsp0

theorem refSym_progress_cur (ctx : Ctx) (site : Nat) (base cur : Store)
    (cache : Cache) (sid : DocId) (h : refSym cur) :
    refSym (updateSprintProgress ctx site base cur cache sid).cur := by
  unfold updateSprintProgress
  repeat' split
  all_goals try exact h
  exact refSym_updSprint_keep cur sid _ (fun sp => rfl) (fun sp => rfl) h

/-- Setting a task's sprint pointer to B preserves referential symmetry
when exactly the B-identified sprints hold the task and all other tasks'
links are symmetric. -/
theorem refSym_setTaskSprint (s : Store) (B T : DocId)
    (hP1 : ∀ sp ∈ s.sprints, (T ∈ sp.taskIds ↔ sp.id = B))
    (hP2 : ∀ t ∈ s.tasks, t.id ≠ T →
      ∀ sp ∈ s.sprints, (t.sprintId = some sp.id ↔ t.id ∈ sp.taskIds)) :
    refSym (updTask s T (fun t => { t with sprintId := some B })) := by
  intro t' ht' sp hmem
  have hsp0 : sp ∈ s.sprints := hmem
  simp only [updTask, List.mem_map] at ht'
  rcases ht' with ⟨t, hmt, hrw⟩
  by_cases hc : t.id = T
  · have hr : t' = { t with sprintId := some B } := by rw [← hrw]; simp [hc]
    rw [hr]
    show some B = some sp.id ↔ t.id ∈ sp.taskIds
    rw [hc, hP1 sp hsp0]
    constructor
    · intro hq
      exact (Option.some.injEq _ _ ▸ hq).symm
    · intro hq
      rw [hq]
  · have hr : t' = t := by rw [← hrw]; simp [hc]
    rw [hr]
    exact hP2 t hmt hc sp hsp0

/-- Clearing a task's sprint pointer preserves referential symmetry when no
sprint holds the task and all other tasks' links are symmetric. -/
theorem refSym_clearTaskSprint (s : Store) (T : DocId)
    (hP0 : ∀ sp ∈ s.sprints, T ∉ sp.taskIds)
    (hP2 : ∀ t ∈ s.tasks, t.id ≠ T →
      ∀ sp ∈ s.sprints, (t.sprintId = some sp.id ↔ t.id ∈ sp.taskIds)) :
    refSym (updTask s T (fun t => { t with sprintId := none })) := by
  intro t' ht' sp hmem
  have hsp0 : sp ∈ s.sprints := hmem
  simp only [updTask, List.mem_map] at ht'
  rcases ht' with ⟨t, hmt, hrw⟩
  by_cases hc : t.id = T
  · have hr : t' = { t with sprintId := none } := by rw [← hrw]; simp [hc]
    rw [hr]
    show (none : Option DocId) = some sp.id ↔ t.id ∈ sp.taskIds
    constructor
    · intro hq
      cases hq
    · intro hq
      rw [hc] at hq
      exact absurd hq (hP0 sp hsp0)
  · have hr : t' = t := by rw [← hrw]; simp [hc]
    rw [hr]
    exact hP2 t hmt hc sp hsp0

theorem memSprints_updSprint (s : Store) (i : DocId) (f : Sprint → Sprint)
    {sp' : Sprint} (hsp' : sp' ∈ (updSprint s i f).sprints) :
    ∃ sp ∈ s.sprints, (if sp.id = i then f sp else sp) = sp' := by
  simp only [updSprint, List.mem_map] at hsp'
  rcases hsp' with ⟨sp, hmem, hrw⟩
  refine ⟨sp, hmem, ?_⟩
  by_cases hc : sp.id = i <;> simp [hc] at hrw ⊢ <;> exact hrw

theorem hP1_push (s : Store) (B T : DocId) (nd : Sprint)
    (hndid : nd.id = B) (hndT : T ∈ nd.taskIds)
    (honlyB : ∀ sp ∈ s.sprints, T ∈ sp.taskIds → sp.id = B) :
    ∀ sp ∈ (updSprint s B (fun _ => nd)).sprints, (T ∈ sp.taskIds ↔ sp.id = B) := by
  intro sp' hsp'
  rcases memSprints_updSprint s B _ hsp' with ⟨sp, hmem, hrw⟩
  by_cases hc : sp.id = B
  · rw [if_pos hc] at hrw
    rw [← hrw, hndid]
    exact ⟨fun _ => rfl, fun _ => hndT⟩
  · rw [if_neg hc] at hrw
    rw [← hrw]
    exact ⟨fun hq => honlyB sp hmem hq, fun hq => absurd hq hc⟩

theorem hP2_updConst (s : Store) (i T : DocId) (d sI : Sprint)
    (hdid : d.id = i) (hdtk : ∀ x, x ≠ T → (x ∈ d.taskIds ↔ x ∈ sI.taskIds))
    (hmemI : sI ∈ s.sprints) (hidI : sI.id = i)
    (hP2 : ∀ t ∈ s.tasks, t.id ≠ T →
      ∀ sp ∈ s.sprints, (t.sprintId = some sp.id ↔ t.id ∈ sp.taskIds)) :
    ∀ t ∈ (updSprint s i (fun _ => d)).tasks, t.id ≠ T →
      ∀ sp ∈ (updSprint s i (fun _ => d)).sprints,
        (t.sprintId = some sp.id ↔ t.id ∈ sp.taskIds) := by
  intro t hmt hne sp' hsp'
  have hmt0 : t ∈ s.tasks := hmt
  rcases memSprints_updSprint s i _ hsp' with ⟨sp, hmem, hrw⟩
  by_cases hc : sp.id = i
  · rw [if_pos hc] at hrw
    rw [← hrw, hdid, hdtk t.id hne, ← hidI]
    exact hP2 t hmt0 hne sI hmemI
  · rw [if_neg hc] at hrw
    rw [← hrw]
    exact hP2 t hmt0 hne sp hmem

theorem hP0_updConst (s : Store) (i T : DocId) (d : Sprint)
    (hdT : T ∉ d.taskIds)
    (honly : ∀ sp ∈ s.sprints, T ∈ sp.taskIds → sp.id = i) :
    ∀ sp ∈ (updSprint s i (fun _ => d)).sprints, T ∉ sp.taskIds := by
  intro sp' hsp'
  rcases memSprints_updSprint s i _ hsp' with ⟨sp, hmem, hrw⟩
  by_cases hc : sp.id = i
  · rw [if_pos hc] at hrw
    rw [← hrw]
    exact hdT
  · rw [if_neg hc] at hrw
    rw [← hrw]
    exact fun hq => hc (honly sp hmem hq)

theorem findSprint_mem {s : Store} {i : DocId} {sp : Sprint}
    (h : findSprint s i = some sp) : sp ∈ s.sprints :=
  find?_mem (show s.sprints.find? (fun x => x.id == i) = some sp from h)

theorem findTask_mem {s : Store} {i : DocId} {t : Task}
    (h : findTask s i = some t) : t ∈ s.tasks :=
  find?_mem (show s.tasks.find? (fun x => x.id == i) = some t from h)

theorem findSprint_none {s : Store} {i : DocId}
    (h : findSprint s i = none) : ∀ sp ∈ s.sprints, sp.id ≠ i := by
  intro sp hmem hq
  have := List.find?_eq_none.mp h sp hmem
  simp [hq] at this

theorem findTask_none {s : Store} {i : DocId}
    (h : findTask s i = none) : ∀ t ∈ s.tasks, t.id ≠ i := by
  intro t hmem hq
  have := List.find?_eq_none.mp h t hmem
  simp [hq] at this
set_option maxHeartbeats 2000000 in
/-- addTaskToSprint preserves referential symmetry over existing tasks: the
displacement layer removes the task from its old sprint, the push layer adds
it to the target membership, and the final write sets the pointer, so the
per-task iff is restored at every committed outcome. -/
theorem c5h_addTaskToSprint (ctx : Ctx) (u B T : DocId) (st : Store) (cache : Cache)
    (h : refSym st) : refSym (addTaskToSprint ctx u B T st cache).store := by
  unfold addTaskToSprint
  split
  next => exact h
  next sB hB =>
  split
  next => exact h
  next proj hproj =>
  split
  next => exact h
  next hp =>
  split
  next => exact h
  next task hT =>
  split
  next => exact h
  next hpj =>
  have hidB : sB.id = B := findSprint_id hB
  have hmemB : sB ∈ st.sprints := findSprint_mem hB
  have hidT : task.id = T := findTask_id hT
  have hmemT : task ∈ st.tasks := findTask_mem hT
  have hP2st : ∀ t ∈ st.tasks, t.id ≠ T →
      ∀ sp ∈ st.sprints, (t.sprintId = some sp.id ↔ t.id ∈ sp.taskIds) :=
    fun t ht _ sp hsp => h t ht sp hsp
  split
  next otherId hspr =>
    have honlyA : ∀ sp ∈ st.sprints, T ∈ sp.taskIds → sp.id = otherId := by
      intro sp hm hq
      have hx := (h task hmemT sp hm).mpr (by rw [hidT]; exact hq)
      rw [hspr] at hx
      exact (Option.some_inj.mp hx).symm
    split
    next hne =>
      have hAB : otherId ≠ B := by simpa using hne
      split
      next sA hA =>
        have hidA : sA.id = otherId := findSprint_id hA
        have hmemA : sA ∈ st.sprints := findSprint_mem hA
        cases hin : sB.taskIds.contains T with
        | true =>
          have h1 := honlyA sB hmemB (contains_iff_mem.mp hin)
          rw [hidB] at h1
          exact absurd h1.symm hAB
        | false =>
          have hP0cur1 := hP0_updConst st otherId T
            (preSaveSprint ctx.now
              { sA with taskIds := List.filter (fun tId => tId != T) sA.taskIds })
            (by rw [preSaveSprint_taskIds]; simp) honlyA
          have hP2cur1 := hP2_updConst st otherId T
            (preSaveSprint ctx.now
              { sA with taskIds := List.filter (fun tId => tId != T) sA.taskIds })
            sA (by rw [preSaveSprint_id]; exact hidA)
            (fun x hx => by rw [preSaveSprint_taskIds]; simp [List.mem_filter, hx])
            hmemA hidA hP2st
          have hmemBcur1 : sB ∈ (updSprint st otherId (fun _ => preSaveSprint ctx.now
              { sA with taskIds := List.filter (fun tId => tId != T) sA.taskIds })).sprints := by
            have hcond : (sB.id == otherId) = false := by
              rw [hidB]; exact beq_eq_false_iff_ne.mpr (Ne.symm hAB)
            show sB ∈ List.map _ st.sprints
            exact List.mem_map.mpr ⟨sB, hmemB, by simp [hcond]⟩
          cases hf0 : ctx.faults 0 with
          | true =>
            repeat' split
            all_goals try exact h
            all_goals contradiction
          | false =>
            rw [if_neg (show ¬false = true by simp)]
            dsimp only
            repeat' split
            all_goals try exact h
            all_goals try contradiction
            all_goals
              exact refSym_progress_cur _ 3 st _ _ B
                (refSym_setTaskSprint _ B T
                  (hP1_push _ B T _ (by rw [preSaveSprint_id]; exact hidB)
                    (by rw [preSaveSprint_taskIds]; simp)
                    (fun sp hm hq => absurd hq (hP0cur1 sp hm)))
                  (hP2_updConst _ B T _ sB (by rw [preSaveSprint_id]; exact hidB)
                    (fun x hx => by rw [preSaveSprint_taskIds]; simp [hx])
                    hmemBcur1 hidB hP2cur1))
      next hA =>
        have hOnly0 : ∀ sp ∈ st.sprints, T ∉ sp.taskIds :=
          fun sp hm hq => absurd (honlyA sp hm hq) (findSprint_none hA sp hm)
        cases hin : sB.taskIds.contains T with
        | true => exact absurd (contains_iff_mem.mp hin) (hOnly0 sB hmemB)
        | false =>
          simp only []
          repeat' split
          all_goals try exact h
          all_goals try contradiction
          all_goals
            exact refSym_progress_cur _ 3 st _ _ B
              (refSym_setTaskSprint _ B T
                (hP1_push st B T _ (by rw [preSaveSprint_id]; exact hidB)
                  (by rw [preSaveSprint_taskIds]; simp)
                  (fun sp hm hq => absurd hq (hOnly0 sp hm)))
                (hP2_updConst st B T _ sB (by rw [preSaveSprint_id]; exact hidB)
                  (fun x hx => by rw [preSaveSprint_taskIds]; simp [hx])
                  hmemB hidB hP2st))
    next hne =>
      have hAeqB : otherId = B := by simpa using hne
      have hP1st : ∀ sp ∈ st.sprints, (T ∈ sp.taskIds ↔ sp.id = B) := by
        intro sp hm
        constructor
        · intro hq
          have hx := (h task hmemT sp hm).mpr (by rw [hidT]; exact hq)
          rw [hspr, hAeqB] at hx
          exact (Option.some_inj.mp hx).symm
        · intro hq
          have hx := (h task hmemT sp hm).mp (by rw [hspr, hAeqB, hq])
          rw [hidT] at hx
          exact hx
      cases hin : sB.taskIds.contains T with
      | true =>
        simp only []
        repeat' split
        all_goals try exact h
        all_goals try contradiction
        all_goals
          exact refSym_progress_cur _ 3 st _ _ B
            (refSym_setTaskSprint _ B T hP1st hP2st)
      | false =>
        simp only []
        repeat' split
        all_goals try exact h
        all_goals try contradiction
        all_goals
          exact refSym_progress_cur _ 3 st _ _ B
            (refSym_setTaskSprint _ B T
              (hP1_push st B T _ (by rw [preSaveSprint_id]; exact hidB)
                (by rw [preSaveSprint_taskIds]; simp)
                (fun sp hm hq => (hP1st sp hm).mp hq))
              (hP2_updConst st B T _ sB (by rw [preSaveSprint_id]; exact hidB)
                (fun x hx => by rw [preSaveSprint_taskIds]; simp [hx])
                hmemB hidB hP2st))
  next hspr =>
    have hOnly0 : ∀ sp ∈ st.sprints, T ∉ sp.taskIds := by
      intro sp hm hq
      have hx := (h task hmemT sp hm).mpr (by rw [hidT]; exact hq)
      rw [hspr] at hx
      cases hx
    cases hin : sB.taskIds.contains T with
    | true => exact absurd (contains_iff_mem.mp hin) (hOnly0 sB hmemB)
    | false =>
      simp only []
      repeat' split
      all_goals try exact h
      all_goals try contradiction
      all_goals
        exact refSym_progress_cur _ 3 st _ _ B
          (refSym_setTaskSprint _ B T
            (hP1_push st B T _ (by rw [preSaveSprint_id]; exact hidB)
              (by rw [preSaveSprint_taskIds]; simp)
              (fun sp hm hq => absurd hq (hOnly0 sp hm)))
            (hP2_updConst st B T _ sB (by rw [preSaveSprint_id]; exact hidB)
              (fun x hx => by rw [preSaveSprint_taskIds]; simp [hx])
              hmemB hidB hP2st))

/-- updTask is the identity when no stored task carries the targeted id. -/
theorem updTask_not_found (s : Store) (i : DocId) (f : Task → Task)
    (hnone : ∀ t ∈ s.tasks, t.id ≠ i) : updTask s i f = s := by
  show ({ s with tasks := s.tasks.map _ } : Store) = s
  have : s.tasks.map (fun x => if x.id == i then f x else x) = s.tasks := by
    conv_rhs => rw [← List.map_id s.tasks]
    apply List.map_congr_left
    intro a ha
    have : (a.id == i) = false := by
      simpa using hnone a ha
    simp [this]
  rw [this]

/-- Replacing every id-i sprint by one fixed document preserves referential
symmetry when the replacement holds exactly the member ids of an existing
id-i record. -/
theorem refSym_updConst (s : Store) (i : DocId) (d sI : Sprint)
    (hdid : d.id = i) (hmemI : sI ∈ s.sprints) (hidI : sI.id = i)
    (hdtk : ∀ t ∈ s.tasks, (t.id ∈ d.taskIds ↔ t.id ∈ sI.taskIds))
    (h : refSym s) : refSym (updSprint s i (fun _ => d)) := by
  intro t ht sp' hsp'
  have ht0 : t ∈ s.tasks := ht
  rcases memSprints_updSprint s i _ hsp' with ⟨sp, hmem, hrw⟩
  by_cases hc : sp.id = i
  · rw [if_pos hc] at hrw
    rw [← hrw, hdid, hdtk t ht0, ← hidI]
    exact h t ht0 sI hmemI
  · rw [if_neg hc] at hrw
    rw [← hrw]
    exact h t ht0 sp hmem

/-- Core of the deleteSprint cascade: clearing sprintId on the deleted
sprint's members and filtering the sprint out preserves referential symmetry
over the surviving documents. -/
theorem refSym_deleteSprint_core (st : Store) (sid : DocId) (sp0 : Sprint)
    (hB : findSprint st sid = some sp0) (h : refSym st) :
    refSym ⟨st.projects,
      st.sprints.filter (fun sp => sp.id != sid),
      st.tasks.map (fun t => if sp0.taskIds.contains t.id then
        { t with sprintId := none } else t)⟩ := by
  have hid0 : sp0.id = sid := findSprint_id hB
  have hmem0 : sp0 ∈ st.sprints := findSprint_mem hB
  intro t' ht' sp hsp
  have hsp' := List.mem_filter.mp hsp
  have hspmem : sp ∈ st.sprints := hsp'.1
  have hspne : sp.id ≠ sid := by simpa using hsp'.2
  simp only [List.mem_map] at ht'
  rcases ht' with ⟨t, ht, hrw⟩
  by_cases hc : sp0.taskIds.contains t.id = true
  · rw [if_pos hc] at hrw
    rw [← hrw]
    refine iff_of_false (by simp) (fun hx => ?_)
    have hx' : t.id ∈ sp.taskIds := hx
    have hptr := (h t ht sp0 hmem0).mpr (contains_iff_mem.mp hc)
    have h2 := (h t ht sp hspmem).mpr hx'
    rw [hptr, hid0] at h2
    exact hspne (Option.some_inj.mp h2).symm
  · rw [if_neg hc] at hrw
    rw [← hrw]
    exact h t ht sp hspmem

/-- Replacing every id-i task by one fixed document preserves referential
symmetry when the replacement keeps the id and pointer of an existing
task. -/
theorem refSym_updTask_const (s : Store) (i : DocId) (t2 task : Task)
    (hmem : task ∈ s.tasks) (hid : t2.id = task.id) (hsp2 : t2.sprintId = task.sprintId)
    (h : refSym s) : refSym (updTask s i (fun _ => t2)) := by
  intro t' ht' sp hsp
  have hsp0 : sp ∈ s.sprints := hsp
  simp only [updTask, List.mem_map] at ht'
  rcases ht' with ⟨t, hmt, hrw⟩
  by_cases hc : (t.id == i) = true
  · rw [if_pos hc] at hrw
    rw [← hrw, hid, hsp2]
    exact h task hmem sp hsp0
  · rw [if_neg hc] at hrw
    rw [← hrw]
    exact h t hmt sp hsp0

/-- Appending a sprint with an empty member list preserves referential
symmetry provided no existing task already points at its id. -/
theorem refSym_appendSprint (st : Store) (d : Sprint)
    (hfresh : ∀ t ∈ st.tasks, t.sprintId ≠ some d.id) (hempty : d.taskIds = [])
    (h : refSym st) : refSym { st with sprints := st.sprints ++ [d] } := by
  intro t ht sp hsp
  have ht0 : t ∈ st.tasks := ht
  have hsp0 : sp ∈ st.sprints ++ [d] := hsp
  rcases List.mem_append.mp hsp0 with hold | hnew
  · exact h t ht0 sp hold
  · have : sp = d := by simpa using hnew
    subst this
    exact iff_of_false (hfresh t ht0) (by simp [hempty])

/-- Appending a task without a sprint pointer preserves referential symmetry
provided no member list already carries its id. -/
theorem refSym_appendTask (st : Store) (nt : Task) (hnone : nt.sprintId = none)
    (hfresh : ∀ sp ∈ st.sprints, nt.id ∉ sp.taskIds)
    (h : refSym st) : refSym { st with tasks := st.tasks ++ [nt] } := by
  intro t ht sp hsp
  have hsp0 : sp ∈ st.sprints := hsp
  have ht0 : t ∈ st.tasks ++ [nt] := ht
  rcases List.mem_append.mp ht0 with hold | hnew
  · exact h t hold sp hsp0
  · have : t = nt := by simpa using hnew
    subst this
    exact iff_of_false (by simp [hnone]) (hfresh sp hsp0)

/-- Dropping tasks (deleteTask's document removal) preserves referential
symmetry over the remaining tasks. -/
theorem refSym_filterTasks (st : Store) (p : Task → Bool)
    (h : refSym st) : refSym { st with tasks := st.tasks.filter p } :=
  fun t ht sp hsp => h t (List.mem_of_mem_filter ht) sp hsp

/-- createSprint preserves referential symmetry when the minted ObjectId is
fresh (no existing task points at it). -/
theorem c5h_createSprint (ctx : Ctx) (u pid nid : DocId) (input : SprintInput)
    (st : Store) (cache : Cache) (h : refSym st)
    (hfresh : ∀ t ∈ st.tasks, t.sprintId ≠ some nid) :
    refSym ((createSprint ctx u pid nid input st cache).store) := by
  unfold createSprint
  repeat' split
  all_goals try exact h
  all_goals
    exact refSym_appendSprint st _
      (fun t ht => by rw [preSaveSprint_id]; exact hfresh t ht)
      (by rw [preSaveSprint_taskIds]) h

/-- updateSprint preserves referential symmetry: the $set patch touches
neither ids nor membership arrays. -/
theorem c5h_updateSprint (ctx : Ctx) (u sid : DocId) (patch : SprintPatch)
    (st : Store) (cache : Cache) (h : refSym st) :
    refSym ((updateSprint ctx u sid patch st cache).store) := by
  unfold updateSprint
  repeat' split
  all_goals try exact h
  all_goals
    exact refSym_updSprint_keep st _ _ (fun sp => rfl) (fun sp => rfl) h

/-- deleteSprint preserves referential symmetry: the cascade clears exactly
the pointers of the deleted sprint's members. -/
theorem c5h_deleteSprint (ctx : Ctx) (u sid : DocId) (st : Store) (cache : Cache)
    (h : refSym st) : refSym ((deleteSprint ctx u sid st cache).store) := by
  unfold deleteSprint
  split
  next => exact h
  next sp0 hB =>
  split
  next => exact h
  next proj hproj =>
  repeat' split
  all_goals try exact h
  all_goals exact refSym_deleteSprint_core st _ sp0 hB h

/-- updateTask preserves referential symmetry: the update changes only
title, status and endDate, never the sprint pointer. -/
theorem c5h_updateTask (ctx : Ctx) (u tid : DocId) (patch : TaskPatch)
    (st : Store) (cache : Cache) (h : refSym st) :
    refSym ((updateTask ctx u tid patch st cache).store) := by
  unfold updateTask
  split
  next => exact h
  next task hT =>
  have hmemT : task ∈ st.tasks := findTask_mem hT
  dsimp only
  repeat' split
  all_goals try exact h
  all_goals
    exact refSym_updTask_const st tid _ task hmemT (by rfl) (by rfl) h

/-- deleteTask preserves referential symmetry over the remaining tasks (the
deleted id may stay dangling in a membership array, which the per-existing-
task invariant does not see). -/
theorem c5h_deleteTask (ctx : Ctx) (u tid : DocId) (st : Store) (cache : Cache)
    (h : refSym st) : refSym ((deleteTask ctx u tid st cache).store) := by
  unfold deleteTask
  split
  next => exact h
  next task hT =>
  exact refSym_filterTasks st _ h

/-- createTask preserves referential symmetry when the minted ObjectId is
fresh (appears in no membership array): the new document carries no sprint
pointer. -/
theorem c5h_createTask (ctx : Ctx) (u nid : DocId) (input : TaskInput)
    (st : Store) (cache : Cache) (h : refSym st)
    (hfresh : ∀ sp ∈ st.sprints, nid ∉ sp.taskIds) :
    refSym ((createTask ctx u nid input st cache).store) := by
  unfold createTask
  dsimp only
  repeat' split
  all_goals try exact h
  all_goals exact refSym_appendTask st _ rfl hfresh h

/-- The recalculate-progress handler preserves referential symmetry: the
progress write touches only progressPercentage and status. -/
theorem c5h_recalculateSprintProgress (ctx : Ctx) (u sid : DocId)
    (st : Store) (cache : Cache) (h : refSym st) :
    refSym ((recalculateSprintProgress ctx u sid st cache).store) := by
  unfold recalculateSprintProgress
  dsimp only
  repeat' split
  all_goals try exact h
  all_goals exact refSym_progress_cur ctx 0 st st cache sid h

set_option maxHeartbeats 2000000 in
/-- removeTaskFromSprint preserves referential symmetry provided the target
task's pointer, when set, is either the addressed sprint or dangling: the
operation clears the pointer unconditionally, so a pointer at a different
existing sprint is the one shape it breaks. -/
theorem c5h_removeTaskFromSprint (ctx : Ctx) (u sid tid : DocId) (st : Store)
    (cache : Cache) (h : refSym st)
    (hcond : ∀ task, findTask st tid = some task → ∀ X, task.sprintId = some X →
      X = sid ∨ findSprint st X = none) :
    refSym ((removeTaskFromSprint ctx u sid tid st cache).store) := by
  unfold removeTaskFromSprint
  split
  next => exact h
  next sp0 hB =>
  split
  next => exact h
  next proj hproj =>
  split
  next => exact h
  next hp =>
  have hid0 : sp0.id = sid := findSprint_id hB
  have hmem0 : sp0 ∈ st.sprints := findSprint_mem hB
  have hP2st : ∀ t ∈ st.tasks, t.id ≠ tid →
      ∀ sp ∈ st.sprints, (t.sprintId = some sp.id ↔ t.id ∈ sp.taskIds) :=
    fun t ht _ sp hsp => h t ht sp hsp
  cases hf0 : ctx.faults 0 with
  | true => exact h
  | false =>
  dsimp only
  rw [if_neg (show ¬false = true by simp)]
  cases hT : findTask st tid with
  | none =>
    have hnot : ∀ t ∈ st.tasks, t.id ≠ tid := findTask_none hT
    rw [updTask_not_found (updSprint st sid (fun x => preSaveSprint ctx.now
        { sp0 with taskIds := List.filter (fun tId => tId != tid) sp0.taskIds })) tid
      (fun t => { t with sprintId := none }) (fun t ht => hnot t ht)]
    repeat' split
    all_goals try exact h
    all_goals
      exact refSym_progress_cur _ 2 st _ _ sid
        (refSym_updConst st sid _ sp0 (by rw [preSaveSprint_id]; exact hid0) hmem0 hid0
          (fun t ht => by rw [preSaveSprint_taskIds]; simp [List.mem_filter, hnot t ht]) h)
  | some task =>
    have hidT : task.id = tid := findTask_id hT
    have hmemT : task ∈ st.tasks := findTask_mem hT
    cases hspr : task.sprintId with
    | none =>
      have hOnly0 : ∀ sp ∈ st.sprints, tid ∉ sp.taskIds := by
        intro sp hm hq
        have hx := (h task hmemT sp hm).mpr (by rw [hidT]; exact hq)
        rw [hspr] at hx
        cases hx
      repeat' split
      all_goals try exact h
      all_goals
        exact refSym_progress_cur _ 2 st _ _ sid
          (refSym_clearTaskSprint _ tid
            (hP0_updConst st sid tid _ (by rw [preSaveSprint_taskIds]; simp)
              (fun sp hm hq => absurd hq (hOnly0 sp hm)))
            (hP2_updConst st sid tid _ sp0 (by rw [preSaveSprint_id]; exact hid0)
              (fun x hx => by rw [preSaveSprint_taskIds]; simp [List.mem_filter, hx])
              hmem0 hid0 hP2st))
    | some X =>
      have honlyX : ∀ sp ∈ st.sprints, tid ∈ sp.taskIds → sp.id = X := by
        intro sp hm hq
        have hx := (h task hmemT sp hm).mpr (by rw [hidT]; exact hq)
        rw [hspr] at hx
        exact (Option.some_inj.mp hx).symm
      rcases hcond task hT X hspr with hXsid | hXnone
      · rw [hXsid] at honlyX
        repeat' split
        all_goals try exact h
        all_goals
          exact refSym_progress_cur _ 2 st _ _ sid
            (refSym_clearTaskSprint _ tid
              (hP0_updConst st sid tid _ (by rw [preSaveSprint_taskIds]; simp) honlyX)
              (hP2_updConst st sid tid _ sp0 (by rw [preSaveSprint_id]; exact hid0)
                (fun x hx => by rw [preSaveSprint_taskIds]; simp [List.mem_filter, hx])
                hmem0 hid0 hP2st))
      · have hOnly0 : ∀ sp ∈ st.sprints, tid ∉ sp.taskIds :=
          fun sp hm hq => absurd (honlyX sp hm hq) (findSprint_none hXnone sp hm)
        repeat' split
        all_goals try exact h
        all_goals
          exact refSym_progress_cur _ 2 st _ _ sid
            (refSym_clearTaskSprint _ tid
              (hP0_updConst st sid tid _ (by rw [preSaveSprint_taskIds]; simp)
                (fun sp hm hq => absurd hq (hOnly0 sp hm)))
              (hP2_updConst st sid tid _ sp0 (by rw [preSaveSprint_id]; exact hid0)
                (fun x hx => by rw [preSaveSprint_taskIds]; simp [List.mem_filter, hx])
                hmem0 hid0 hP2st))

/-- C5 amended: referential symmetry (for every existing task T and sprint S,
T.sprintId = S.id iff S.taskIds contains T.id) is preserved by every store
mutation of the controllers -- createSprint and createTask under freshness of
the minted ObjectId, updateSprint, deleteSprint, addTaskToSprint, updateTask,
deleteTask and recalculate-progress unconditionally -- but removeTaskFromSprint
preserves it only when the task's pointer, if set, is the addressed sprint or
dangling: called with a different existing sprint it clears the pointer while
the true owner's member list keeps the id, breaking the invariant (the
counterexample), so the original claim's 'every operation preserves' is
false as stated. -/
theorem c5_amended_referential_symmetry :
    (∀ ctx u pid nid input st cache, refSym st →
      (∀ t ∈ st.tasks, t.sprintId ≠ some nid) →
      refSym ((createSprint ctx u pid nid input st cache).store)) ∧
    (∀ ctx u sid patch st cache, refSym st →
      refSym ((updateSprint ctx u sid patch st cache).store)) ∧
    (∀ ctx u sid st cache, refSym st →
      refSym ((deleteSprint ctx u sid st cache).store)) ∧
    (∀ ctx u sid tid st cache, refSym st →
      refSym ((addTaskToSprint ctx u sid tid st cache).store)) ∧
    (∀ ctx u sid tid st cache, refSym st →
      (∀ task, findTask st tid = some task → ∀ X, task.sprintId = some X →
        X = sid ∨ findSprint st X = none) →
      refSym ((removeTaskFromSprint ctx u sid tid st cache).store)) ∧
    (∀ ctx u tid patch st cache, refSym st →
      refSym ((updateTask ctx u tid patch st cache).store)) ∧
    (∀ ctx u tid st cache, refSym st →
      refSym ((deleteTask ctx u tid st cache).store)) ∧
    (∀ ctx u nid input st cache, refSym st →
      (∀ sp ∈ st.sprints, nid ∉ sp.taskIds) →
      refSym ((createTask ctx u nid input st cache).store)) ∧
    (∀ ctx u sid st cache, refSym st →
      refSym ((recalculateSprintProgress ctx u sid st cache).store)) :=
  ⟨fun ctx u pid nid input st cache h hf =>
     c5h_createSprint ctx u pid nid input st cache h hf,
   fun ctx u sid patch st cache h => c5h_updateSprint ctx u sid patch st cache h,
   fun ctx u sid st cache h => c5h_deleteSprint ctx u sid st cache h,
   fun ctx u sid tid st cache h => c5h_addTaskToSprint ctx u sid tid st cache h,
   fun ctx u sid tid st cache h hc =>
     c5h_removeTaskFromSprint ctx u sid tid st cache h hc,
   fun ctx u tid patch st cache h => c5h_updateTask ctx u tid patch st cache h,
   fun ctx u tid st cache h => c5h_deleteTask ctx u tid st cache h,
   fun ctx u nid input st cache h hf => c5h_createTask ctx u nid input st cache h hf,
   fun ctx u sid st cache h => c5h_recalculateSprintProgress ctx u sid st cache h⟩

/-- Witness: the removeTaskFromSprint conjunct of the amended C5 theorem
applied to the concrete store stC5 at the sprint the task belongs to, the
hypotheses discharged by evaluation. -/
theorem c5_amended_witness :
    refSym ((removeTaskFromSprint ctxW 10 2 3 stC5 []).store) := by
  apply c5_amended_referential_symmetry.2.2.2.2.1 ctxW 10 2 3 stC5 []
  · exact (refSymB_iff stC5).mp (by decide)
  · intro task htask X hX
    have h0 : findTask stC5 3 =
        some (⟨3, 1, "Task Three", "ToDo", some 2, none, none⟩ : Task) := rfl
    rw [h0] at htask
    have hEq := Option.some_inj.mp htask
    rw [← hEq] at hX
    exact Or.inl (Option.some_inj.mp hX).symm

end MyTask
